import Mathlib

/-!
Verification of the `MeshDetector` component (WebXR mesh-detection wrapper)
of the xrblocks repository.

The TypeScript class `MeshDetector` keeps two JavaScript `Map`s
(`xrMeshToThreeMesh`, `threeMeshToXrMesh`), a scene child list, a heap of
`DetectedMesh` objects, a throttle timestamp and an optional physics handle.
We embed the class shallowly:

* JS `Map`s become association lists over `Nat` keys (object identity of
  `XRMesh` handles and `DetectedMesh` objects is modelled by `Nat` ids;
  `DetectedMesh` allocation draws fresh ids from a `nextId` counter);
* JS numbers become exact rationals (`ℚ`); the source's floating-point
  comparisons against `Math.sqrt` are encoded by `ltSqrt c sq`, which holds
  exactly when `c < Real.sqrt sq` for `0 ≤ sq` (proved in `ltSqrt_iff`), so
  no square root needs to be computed;
* `frame.getPose(...)`, `frame.getViewerPose(...)` and
  `frame.detectedMeshes` become fields of an `XRFrameT` record;
  `renderer.xr.getReferenceSpace()` becomes a boolean availability flag;
* `performance.now()` becomes the explicit `now` argument of
  `updateMeshes` (the source ignores its `_timestamp` parameter);
* `DetectedMesh.dispose()` / `initRapierPhysics(...)` / `updateVertices(...)`
  become flag/field updates on the stored `DetectedMeshData` record.
-/

namespace MeshDetection

/-! ### Association lists: the model of JavaScript `Map`

`lookupA`/`setA`/`eraseA` model `Map.get`/`Map.set`/`Map.delete`.
`setA` replaces in place when the key is present and appends otherwise,
exactly like `Map.set`.  `eraseA` removes every entry with the given key;
since all maps in this development have duplicate-free keys (part of the
invariant proved below) this agrees with `Map.delete`. -/

def lookupA {β : Type _} : List (Nat × β) → Nat → Option β
  | [], _ => none
  | p :: l, k => if p.1 = k then some p.2 else lookupA l k

def setA {β : Type _} : List (Nat × β) → Nat → β → List (Nat × β)
  | [], k, v => [(k, v)]
  | p :: l, k, v => if p.1 = k then (k, v) :: l else p :: setA l k v

def eraseA {β : Type _} : List (Nat × β) → Nat → List (Nat × β)
  | [], _ => []
  | p :: l, k => if p.1 = k then eraseA l k else p :: eraseA l k

/-- In-place update of the value stored at key `k` (no-op if absent). -/
def modifyA {β : Type _} (l : List (Nat × β)) (k : Nat) (g : β → β) : List (Nat × β) :=
  l.map (fun p => if p.1 = k then (p.1, g p.2) else p)

def keysA {β : Type _} (l : List (Nat × β)) : List Nat :=
  l.map Prod.fst

section AssocLemmas

variable {β : Type _}

theorem mem_keysA {l : List (Nat × β)} {k : Nat} :
    k ∈ keysA l ↔ ∃ v, (k, v) ∈ l := by
  simp only [keysA, List.mem_map]
  constructor
  · rintro ⟨⟨a, b⟩, hm, rfl⟩; exact ⟨b, hm⟩
  · rintro ⟨v, hv⟩; exact ⟨(k, v), hv, rfl⟩

theorem lookupA_mem {l : List (Nat × β)} {k : Nat} {v : β}
    (h : lookupA l k = some v) : (k, v) ∈ l := by
  induction l with
  | nil => simp [lookupA] at h
  | cons p l ih =>
    rw [lookupA] at h
    by_cases hk : p.1 = k
    · simp only [hk, if_pos rfl] at h
      cases h
      cases p; cases hk
      exact List.mem_cons_self _ _
    · rw [if_neg hk] at h
      exact List.mem_cons_of_mem _ (ih h)

theorem lookupA_isSome_of_mem_keysA {l : List (Nat × β)} {k : Nat}
    (h : k ∈ keysA l) : ∃ v, lookupA l k = some v := by
  induction l with
  | nil => simp [keysA] at h
  | cons p l ih =>
    rw [keysA, List.map_cons, List.mem_cons] at h
    by_cases hk : p.1 = k
    · exact ⟨p.2, by rw [lookupA, if_pos hk]⟩
    · rcases h with h | h
      · exact absurd h.symm hk
      · rcases ih h with ⟨v, hv⟩
        exact ⟨v, by rw [lookupA, if_neg hk, hv]⟩

theorem lookupA_eq_none_of_not_mem_keysA {l : List (Nat × β)} {k : Nat}
    (h : k ∉ keysA l) : lookupA l k = none := by
  induction l with
  | nil => rfl
  | cons p l ih =>
    rw [keysA, List.map_cons, List.mem_cons] at h
    push_neg at h
    rw [lookupA, if_neg (Ne.symm h.1)]
    exact ih h.2

theorem mem_keysA_of_lookupA {l : List (Nat × β)} {k : Nat} {v : β}
    (h : lookupA l k = some v) : k ∈ keysA l :=
  mem_keysA.2 ⟨v, lookupA_mem h⟩

/-- With duplicate-free keys, membership determines the lookup result. -/
theorem lookupA_of_mem_nodup {l : List (Nat × β)} {k : Nat} {v : β}
    (hnd : (keysA l).Nodup) (h : (k, v) ∈ l) : lookupA l k = some v := by
  induction l with
  | nil => simp at h
  | cons p l ih =>
    rw [keysA, List.map_cons, List.nodup_cons] at hnd
    rcases List.mem_cons.1 h with h | h
    · subst h
      rw [lookupA, if_pos rfl]
    · have hk : p.1 ≠ k := by
        intro hk
        exact hnd.1 (hk ▸ mem_keysA.2 ⟨v, h⟩)
      rw [lookupA, if_neg hk]
      exact ih hnd.2 h

theorem mem_eraseA {l : List (Nat × β)} {k : Nat} {p : Nat × β} :
    p ∈ eraseA l k ↔ p ∈ l ∧ p.1 ≠ k := by
  induction l with
  | nil => simp [eraseA]
  | cons q l ih =>
    rw [eraseA]
    by_cases hq : q.1 = k
    · rw [if_pos hq, ih]
      constructor
      · rintro ⟨hm, hk⟩; exact ⟨List.mem_cons_of_mem _ hm, hk⟩
      · rintro ⟨hm, hk⟩
        rcases List.mem_cons.1 hm with rfl | hm
        · exact absurd hq hk
        · exact ⟨hm, hk⟩
    · rw [if_neg hq, List.mem_cons, ih, List.mem_cons]
      constructor
      · rintro (rfl | ⟨hm, hk⟩)
        · exact ⟨Or.inl rfl, hq⟩
        · exact ⟨Or.inr hm, hk⟩
      · rintro ⟨rfl | hm, hk⟩
        · exact Or.inl rfl
        · exact Or.inr ⟨hm, hk⟩

theorem lookupA_eraseA_self {l : List (Nat × β)} {k : Nat} :
    lookupA (eraseA l k) k = none := by
  apply lookupA_eq_none_of_not_mem_keysA
  intro h
  rcases mem_keysA.1 h with ⟨v, hv⟩
  exact (mem_eraseA.1 hv).2 rfl

theorem lookupA_eraseA_ne {l : List (Nat × β)} {k k' : Nat} (h : k' ≠ k) :
    lookupA (eraseA l k) k' = lookupA l k' := by
  induction l with
  | nil => rfl
  | cons p l ih =>
    rw [eraseA]
    by_cases hp : p.1 = k
    · rw [if_pos hp, lookupA, if_neg (hp ▸ fun he => h he.symm), ih]
    · rw [if_neg hp, lookupA, lookupA]
      by_cases hp' : p.1 = k'
      · rw [if_pos hp', if_pos hp']
      · rw [if_neg hp', if_neg hp', ih]

theorem eraseA_of_not_mem_keysA {l : List (Nat × β)} {k : Nat}
    (h : k ∉ keysA l) : eraseA l k = l := by
  induction l with
  | nil => rfl
  | cons p l ih =>
    rw [keysA, List.map_cons, List.mem_cons] at h
    push_neg at h
    rw [eraseA, if_neg (Ne.symm h.1), ih h.2]

theorem keysA_eraseA_nodup {l : List (Nat × β)} {k : Nat}
    (h : (keysA l).Nodup) : (keysA (eraseA l k)).Nodup := by
  induction l with
  | nil => simp [eraseA, keysA]
  | cons p l ih =>
    rw [keysA, List.map_cons, List.nodup_cons] at h
    rw [eraseA]
    by_cases hp : p.1 = k
    · rw [if_pos hp]; exact ih h.2
    · rw [if_neg hp, keysA, List.map_cons, List.nodup_cons]
      refine ⟨fun hm => ?_, ih h.2⟩
      rcases mem_keysA.1 hm with ⟨v, hv⟩
      exact h.1 (mem_keysA.2 ⟨v, (mem_eraseA.1 hv).1⟩)

end AssocLemmas

/-! ### Data model -/

/-- A 3-component vector of exact rationals (models `THREE.Vector3`). -/
structure Vec3 where
  x : ℚ
  y : ℚ
  z : ℚ
deriving DecidableEq

/-- A world transform as returned by `frame.getPose(...)`.  Nothing in the
source computes with the orientation quaternion, so it is kept opaque. -/
structure Pose where
  position : Vec3
  orientation : Nat
deriving DecidableEq

/-- Viewer position and (already normalized) forward direction as extracted
by `getCameraInfo` from `viewerPose.views[0].transform.matrix`. -/
structure CameraInfo where
  position : Vec3
  forward : Vec3
deriving DecidableEq

/-- One `XRMesh` handle as seen through the fields the source reads:
its identity (`id`, modelling JS object identity, also standing for
`meshSpace`), `semanticLabel`, and its current vertex data (`verts`, an
opaque version token covering `vertices`/`indices`). -/
structure XRMeshData where
  id : Nat
  semanticLabel : Option String
  verts : Nat
deriving DecidableEq

/-- The per-call frame context:
`detectedMeshes` (absent when mesh detection is unavailable),
the viewer pose (absent when `getViewerPose` fails or has no views), and
the pose lookup `frame.getPose(mesh.meshSpace, referenceSpace)` as an
association list keyed by mesh id. -/
structure XRFrameT where
  detectedMeshes : Option (List XRMeshData)
  viewerPose : Option CameraInfo
  poses : List (Nat × Pose)
deriving DecidableEq

/-- The material attached to a `DetectedMesh`: a label-specific debug
material from `debugMaterials`, the generic wireframe
`fallbackDebugMaterial`, or the invisible `defaultMaterial`. -/
inductive MaterialKind where
  | debug (label : String)
  | fallbackDebug
  | invisibleDefault
deriving DecidableEq

/-- The observable state of one `DetectedMesh` object:
its transform (set by `updateMeshPose`), geometry version (set by the
constructor and `updateVertices`), material, and whether
`initRapierPhysics` / `dispose` have been called on it. -/
structure DetectedMeshData where
  position : Vec3
  orientation : Nat
  verts : Nat
  material : MaterialKind
  physicsRegistered : Bool
  disposed : Bool
deriving DecidableEq

/-- The mutable state of a `MeshDetector` instance.
`store` is the heap of allocated `DetectedMesh` objects, keyed by ids drawn
from `nextId`; `scene` is the list of `DetectedMesh` ids currently attached
as children (`this.add`/`this.remove`); `physics` records whether
`initPhysics` has attached a physics engine. -/
structure MeshDetector where
  debugMaterialLabels : List String
  fallbackDebugMaterial : Bool
  xrMeshToThreeMesh : List (Nat × Nat)
  threeMeshToXrMesh : List (Nat × Nat)
  physics : Bool
  lastMeshUpdateTime : ℚ
  store : List (Nat × DetectedMeshData)
  scene : List Nat
  nextId : Nat
deriving DecidableEq

/-! ### Constants (source lines 8–9 and 26–41) -/

def SEMANTIC_LABELS : List String := ["floor", "ceiling", "wall"]

def SEMANTIC_COLORS : List Nat := [0x00ff00, 0xffff00, 0x0000ff]

def kMaxViewDistance : ℚ := 3

def kFOVCosThreshold : ℚ := 1/4

def MAX_MESHES_PER_FRAME : Nat := 100000

def MESH_UPDATE_INTERVAL_MS : ℚ := 1000

/-- Declared but never used by the source (`Optimization4`). -/
def MAX_MESH_COUNT : Nat := 200

/-- Declared but never used by the source (`Optimization4`). -/
def MESH_CLEANUP_INTERVAL_MS : ℚ := 5000

/-! ### Operations -/

/-- Field/constructor state after `init({options, renderer})`:
with `showDebugVisualizations`, `debugMaterials` gets one entry per
`SEMANTIC_LABELS` entry and `fallbackDebugMaterial` is created;
otherwise both stay empty/null. -/
def initialState (showDebugVisualizations : Bool) : MeshDetector :=
  { debugMaterialLabels := if showDebugVisualizations then SEMANTIC_LABELS else []
    fallbackDebugMaterial := showDebugVisualizations
    xrMeshToThreeMesh := []
    threeMeshToXrMesh := []
    physics := false
    lastMeshUpdateTime := 0
    store := []
    scene := []
    nextId := 0 }

/-- One iteration of the `initPhysics` loop:
`mesh.initRapierPhysics(RAPIER, blendedWorld)` on one forward-map value. -/
def markStep (s : MeshDetector) (q : Nat × Nat) : MeshDetector :=
  { s with store := modifyA s.store q.2 (fun dm => { dm with physicsRegistered := true }) }

/-- Model of `initPhysics(physics)`: record the physics handle, then call
`mesh.initRapierPhysics(...)` on the value of every forward-map entry. -/
def initPhysics (s : MeshDetector) : MeshDetector :=
  let s1 := { s with physics := true }
  s1.xrMeshToThreeMesh.foldl markStep s1

/-- Model of `meshes.has(xrMesh)` over the frame's detected-mesh set. -/
def feedHas (meshes : List XRMeshData) (xid : Nat) : Bool :=
  meshes.any (fun m => m.id == xid)

/-- Encoding of `c < Math.sqrt sq` without a square root: for `0 ≤ sq` this is
equivalent to `(c : ℝ) < Real.sqrt sq` (theorem `ltSqrt_iff`). -/
def ltSqrt (c sq : ℚ) : Bool :=
  decide (c < 0) || decide (c * c < sq)

/-- Model of `shouldShowMeshInView` (source lines 216–260).  Fail-open when the pose
is unavailable; otherwise cull when `distance > kMaxViewDistance`, and when
`distance > 0.001` also cull when the normalized direction-to-mesh dotted
with the camera forward is `< kFOVCosThreshold`.  Each comparison against
`distance = Math.sqrt distSq` is written via `ltSqrt`:
`distance > c ↔ ltSqrt c distSq`, and, since `kFOVCosThreshold > 0` and
`distance > 0` in that branch,
`dot/distance < kFOVCosThreshold ↔ ltSqrt (dot/kFOVCosThreshold) distSq`. -/
def shouldShowMeshInView (mesh : XRMeshData) (cameraPosition cameraForward : Vec3)
    (frame : XRFrameT) : Bool :=
  match lookupA frame.poses mesh.id with
  | none => true
  | some meshPose =>
    let dx := meshPose.position.x - cameraPosition.x
    let dy := meshPose.position.y - cameraPosition.y
    let dz := meshPose.position.z - cameraPosition.z
    let distSq := dx * dx + dy * dy + dz * dz
    if ltSqrt kMaxViewDistance distSq then false
    else if ltSqrt (1/1000) distSq then
      let dotScaled := dx * cameraForward.x + dy * cameraForward.y + dz * cameraForward.z
      if ltSqrt (dotScaled / kFOVCosThreshold) distSq then false
      else true
    else true

/-- Model of `getCameraInfo` (source lines 186–211): viewer position and forward
direction from the first view, defaulting to origin / `-Z` when no viewer
pose (or no view) is available. -/
def getCameraInfo (frame : XRFrameT) : CameraInfo :=
  match frame.viewerPose with
  | some ci => ci
  | none => { position := ⟨0, 0, 0⟩, forward := ⟨0, 0, -1⟩ }

/-- Material selection in `createMesh` (source lines 162–166):
`(semanticLabel && debugMaterials.get(semanticLabel)) || fallbackDebugMaterial
|| defaultMaterial`. -/
def selectMaterial (debugMaterialLabels : List String) (hasFallback : Bool)
    (semanticLabel : Option String) : MaterialKind :=
  match semanticLabel with
  | some label =>
    if label ∈ debugMaterialLabels then MaterialKind.debug label
    else if hasFallback then MaterialKind.fallbackDebug
    else MaterialKind.invisibleDefault
  | none =>
    if hasFallback then MaterialKind.fallbackDebug
    else MaterialKind.invisibleDefault

/-- Model of `updateMeshPose` applied to a `DetectedMesh` record: copy position and
orientation when a pose is available, otherwise leave the transform as is. -/
def applyPose (pose : Option Pose) (dm : DetectedMeshData) : DetectedMeshData :=
  match pose with
  | some p => { dm with position := p.position, orientation := p.orientation }
  | none => dm

/-- The `DetectedMesh` constructor: geometry from the `XRMesh`'s current
vertex data, the given material, identity transform, no physics. -/
def mkDetectedMesh (xrMesh : XRMeshData) (material : MaterialKind) : DetectedMeshData :=
  { position := ⟨0, 0, 0⟩
    orientation := 0
    verts := xrMesh.verts
    material := material
    physicsRegistered := false
    disposed := false }

/-- Model of `createMesh(frame, xrMesh)` (source lines 161–170): build the
`DetectedMesh` with the selected material, then `updateMeshPose`. -/
def createMesh (frame : XRFrameT) (s : MeshDetector) (xrMesh : XRMeshData) :
    DetectedMeshData :=
  let material := selectMaterial s.debugMaterialLabels s.fallbackDebugMaterial
    xrMesh.semanticLabel
  applyPose (lookupA frame.poses xrMesh.id) (mkDetectedMesh xrMesh material)

/-- The shared teardown (source lines 101–104 and 129–132): delete the
forward and reverse map entries, `dispose()` the `DetectedMesh`, and
`remove` it from the scene. -/
def removePair (s : MeshDetector) (xid t : Nat) : MeshDetector :=
  { s with
    xrMeshToThreeMesh := eraseA s.xrMeshToThreeMesh xid
    threeMeshToXrMesh := eraseA s.threeMeshToXrMesh t
    store := modifyA s.store t (fun dm => { dm with disposed := true })
    scene := s.scene.filter (fun u => u != t) }

/-- The not-visible branch (source lines 127–133): tear the mesh down only
when it is currently mapped. -/
def cullRemove (s : MeshDetector) (xid : Nat) : MeshDetector :=
  match lookupA s.xrMeshToThreeMesh xid with
  | some t => removePair s xid t
  | none => s

/-- One step of the deletion pass (source lines 99–106): entries whose
`XRMesh` is still in the feed are kept, the rest are torn down. -/
def deleteStep (meshes : List XRMeshData) (s : MeshDetector) (p : Nat × Nat) :
    MeshDetector :=
  if feedHas meshes p.1 then s else removePair s p.1 p.2

/-- The deletion pass: iterate over the forward map's entries. -/
def deletePass (meshes : List XRMeshData) (s : MeshDetector) : MeshDetector :=
  s.xrMeshToThreeMesh.foldl (deleteStep meshes) s

/-- The new-mesh branch (source lines 140–151): allocate the
`DetectedMesh`, register both map entries, attach to the scene, and
register physics when a physics engine is attached. -/
def createStep (frame : XRFrameT) (s : MeshDetector) (xrMesh : XRMeshData) :
    MeshDetector :=
  let t := s.nextId
  let dm := createMesh frame s xrMesh
  let dm := if s.physics then { dm with physicsRegistered := true } else dm
  { s with
    store := setA s.store t dm
    nextId := t + 1
    xrMeshToThreeMesh := setA s.xrMeshToThreeMesh xrMesh.id t
    threeMeshToXrMesh := setA s.threeMeshToXrMesh t xrMesh.id
    scene := s.scene ++ [t] }

/-- The existing-mesh branch (source lines 152–157):
`updateVertices(xrMesh)` then `updateMeshPose(frame, xrMesh, threeMesh)`. -/
def updateStep (frame : XRFrameT) (s : MeshDetector) (xrMesh : XRMeshData) :
    MeshDetector :=
  match lookupA s.xrMeshToThreeMesh xrMesh.id with
  | some t =>
    { s with
      store := modifyA s.store t
        (fun dm => applyPose (lookupA frame.poses xrMesh.id) { dm with verts := xrMesh.verts }) }
  | none => s

/-- One iteration of the reconciliation loop (source lines 113–158),
threading `processedCount`.  Once the count reaches
`MAX_MESHES_PER_FRAME` every later iteration is a no-op, which models the
`break`. -/
def processStep (frame : XRFrameT) (cameraPosition cameraForward : Vec3)
    (acc : MeshDetector × Nat) (xrMesh : XRMeshData) : MeshDetector × Nat :=
  let s := acc.1
  let processedCount := acc.2
  if MAX_MESHES_PER_FRAME ≤ processedCount then acc
  else if shouldShowMeshInView xrMesh cameraPosition cameraForward frame then
    if (lookupA s.xrMeshToThreeMesh xrMesh.id).isSome then
      (updateStep frame s xrMesh, processedCount + 1)
    else
      (createStep frame s xrMesh, processedCount + 1)
  else
    (cullRemove s xrMesh.id, processedCount)

/-- Model of `updateMeshes(_timestamp, frame)` (source lines 78–159).  `now` is the
value `performance.now()` returns during the call (the `_timestamp`
parameter is unused by the source); `refSpaceAvailable` models
`renderer.xr.getReferenceSpace()` being non-null. -/
def updateMeshesBody (now : ℚ) (refSpaceAvailable : Bool) (f : XRFrameT)
    (meshes : List XRMeshData) (s : MeshDetector) : MeshDetector :=
  if now - s.lastMeshUpdateTime < MESH_UPDATE_INTERVAL_MS then s
  else
    let s1 := { s with lastMeshUpdateTime := now }
    if refSpaceAvailable then
      let ci := getCameraInfo f
      let s2 := deletePass meshes s1
      (meshes.foldl (processStep f ci.position ci.forward) (s2, 0)).1
    else s1

def updateMeshesFrame (now : ℚ) (refSpaceAvailable : Bool) (f : XRFrameT)
    (s : MeshDetector) : MeshDetector :=
  match f.detectedMeshes with
  | none => s
  | some meshes => updateMeshesBody now refSpaceAvailable f meshes s

def updateMeshes (now : ℚ) (refSpaceAvailable : Bool) (frame : Option XRFrameT)
    (s : MeshDetector) : MeshDetector :=
  match frame with
  | none => s
  | some f => updateMeshesFrame now refSpaceAvailable f s

/-- One scheduler input to `updateMeshes`. -/
structure TickInput where
  now : ℚ
  refSpaceAvailable : Bool
  frame : Option XRFrameT

/-- A sequence of `updateMeshes` calls. -/
def runTicks (inputs : List TickInput) (s : MeshDetector) : MeshDetector :=
  inputs.foldl (fun s i => updateMeshes i.now i.refSpaceAvailable i.frame s) s

/-! ### More association-list lemmas -/

section MoreAssocLemmas

variable {β : Type _}

theorem keysA_eraseA_subset {l : List (Nat × β)} {k u : Nat}
    (h : u ∈ keysA (eraseA l k)) : u ∈ keysA l := by
  rcases mem_keysA.1 h with ⟨v, hv⟩
  exact mem_keysA.2 ⟨v, (mem_eraseA.1 hv).1⟩

theorem not_mem_keysA_eraseA_self {l : List (Nat × β)} {k : Nat} :
    k ∉ keysA (eraseA l k) := by
  intro h
  rcases lookupA_isSome_of_mem_keysA h with ⟨v, hv⟩
  rw [lookupA_eraseA_self] at hv
  exact Option.noConfusion hv

theorem keysA_append {l l' : List (Nat × β)} :
    keysA (l ++ l') = keysA l ++ keysA l' := by
  simp [keysA]

theorem keysA_modifyA {l : List (Nat × β)} {k : Nat} {g : β → β} :
    keysA (modifyA l k g) = keysA l := by
  simp only [keysA, modifyA, List.map_map]
  apply List.map_congr_left
  intro p _
  by_cases hp : p.1 = k
  · simp [hp]
  · simp [hp]

theorem lookupA_modifyA_self {l : List (Nat × β)} {k : Nat} {g : β → β} :
    lookupA (modifyA l k g) k = (lookupA l k).map g := by
  induction l with
  | nil => rfl
  | cons p l ih =>
    rw [modifyA, List.map_cons]
    by_cases hp : p.1 = k
    · simp [hp, lookupA]
    · simp only [if_neg hp, lookupA, if_neg hp]
      exact ih

theorem lookupA_modifyA_ne {l : List (Nat × β)} {k k' : Nat} {g : β → β}
    (h : k' ≠ k) : lookupA (modifyA l k g) k' = lookupA l k' := by
  induction l with
  | nil => rfl
  | cons p l ih =>
    rw [modifyA, List.map_cons]
    by_cases hp : p.1 = k
    · rw [if_pos hp, lookupA, lookupA, if_neg (by rw [hp]; exact fun he => h he.symm),
        if_neg (by rw [hp]; exact fun he => h he.symm)]
      exact ih
    · rw [if_neg hp, lookupA, lookupA]
      by_cases hp' : p.1 = k'
      · rw [if_pos hp', if_pos hp']
      · rw [if_neg hp', if_neg hp']
        exact ih

theorem setA_of_not_mem {l : List (Nat × β)} {k : Nat} {v : β}
    (h : k ∉ keysA l) : setA l k v = l ++ [(k, v)] := by
  induction l with
  | nil => rfl
  | cons p l ih =>
    rw [keysA, List.map_cons, List.mem_cons] at h
    push_neg at h
    rw [setA, if_neg (Ne.symm h.1), List.cons_append, ih h.2]

theorem lookupA_append_left {l l' : List (Nat × β)} {k : Nat} {v : β}
    (h : lookupA l k = some v) : lookupA (l ++ l') k = some v := by
  induction l with
  | nil => simp [lookupA] at h
  | cons p l ih =>
    rw [lookupA] at h
    rw [List.cons_append, lookupA]
    by_cases hp : p.1 = k
    · rwa [if_pos hp] at h ⊢
    · rw [if_neg hp] at h ⊢
      exact ih h

theorem lookupA_append_of_not_mem {l l' : List (Nat × β)} {k : Nat}
    (h : k ∉ keysA l) : lookupA (l ++ l') k = lookupA l' k := by
  induction l with
  | nil => rfl
  | cons p l ih =>
    rw [keysA, List.map_cons, List.mem_cons] at h
    push_neg at h
    rw [List.cons_append, lookupA, if_neg (Ne.symm h.1)]
    exact ih h.2

theorem nodup_append_single {l : List Nat} {a : Nat}
    (hnd : l.Nodup) (ha : a ∉ l) : (l ++ [a]).Nodup := by
  rw [List.nodup_append]
  refine ⟨hnd, List.nodup_singleton a, ?_⟩
  intro b hb hb'
  rw [List.mem_singleton] at hb'
  exact ha (hb' ▸ hb)

theorem mem_modifyA_keys {β : Type _} {l : List (Nat × β)} {k : Nat} {g : β → β}
    {p : Nat × β} (h : p ∈ modifyA l k g) : p.1 ∈ keysA l := by
  rcases List.mem_map.1 h with ⟨q, hq, he⟩
  have hq1 : q.1 ∈ keysA l := mem_keysA.2 ⟨q.2, hq⟩
  by_cases hk : q.1 = k
  · rw [if_pos hk] at he
    rw [← he]
    exact hq1
  · rw [if_neg hk] at he
    rw [← he]
    exact hq1

theorem mem_filter_ne {l : List Nat} {u t : Nat} :
    u ∈ l.filter (fun v => v != t) ↔ u ∈ l ∧ u ≠ t := by
  simp [List.mem_filter]

end MoreAssocLemmas

/-! ### The bijection invariant

`Inv` is the strengthened inductive invariant of a `MeshDetector` state:
the two maps have duplicate-free keys and are mutual inverses, every mapped
`DetectedMesh` id is a live heap id below the allocation counter, every
heap id is below the counter, and the scene children are exactly the keys
of the reverse map. -/

def Inv (s : MeshDetector) : Prop :=
  (keysA s.xrMeshToThreeMesh).Nodup ∧
  (keysA s.threeMeshToXrMesh).Nodup ∧
  (∀ p ∈ s.xrMeshToThreeMesh, (p.2, p.1) ∈ s.threeMeshToXrMesh) ∧
  (∀ p ∈ s.threeMeshToXrMesh, (p.2, p.1) ∈ s.xrMeshToThreeMesh) ∧
  (∀ p ∈ s.threeMeshToXrMesh, p.1 < s.nextId) ∧
  (∀ p ∈ s.threeMeshToXrMesh, p.1 ∈ keysA s.store) ∧
  (∀ p ∈ s.store, p.1 < s.nextId) ∧
  (∀ t ∈ s.scene, t ∈ keysA s.threeMeshToXrMesh) ∧
  (∀ p ∈ s.threeMeshToXrMesh, p.1 ∈ s.scene)

instance (s : MeshDetector) : Decidable (Inv s) := by
  unfold Inv; infer_instance

/-- Under `Inv`, the forward map takes each `DetectedMesh` id at most
once. -/
theorem inv_fwd_value_inj {s : MeshDetector} (h : Inv s) {x₁ x₂ t : Nat}
    (h₁ : (x₁, t) ∈ s.xrMeshToThreeMesh) (h₂ : (x₂, t) ∈ s.xrMeshToThreeMesh) :
    x₁ = x₂ := by
  obtain ⟨-, n2, hfr, -, -, -, -, -, -⟩ := h
  have e₁ : lookupA s.threeMeshToXrMesh t = some x₁ :=
    lookupA_of_mem_nodup n2 (hfr _ h₁)
  have e₂ : lookupA s.threeMeshToXrMesh t = some x₂ :=
    lookupA_of_mem_nodup n2 (hfr _ h₂)
  rw [e₁] at e₂
  exact Option.some_injective _ e₂

/-- Under `Inv`, every mapped `DetectedMesh` id is below the allocation
counter. -/
theorem inv_fwd_value_lt {s : MeshDetector} (h : Inv s) {x t : Nat}
    (hm : (x, t) ∈ s.xrMeshToThreeMesh) : t < s.nextId := by
  obtain ⟨-, -, hfr, -, hlt, -, -, -, -⟩ := h
  exact hlt _ (hfr _ hm)

/-- Under `Inv`, every mapped `DetectedMesh` id has a heap record. -/
theorem inv_fwd_value_store {s : MeshDetector} (h : Inv s) {x t : Nat}
    (hm : (x, t) ∈ s.xrMeshToThreeMesh) : t ∈ keysA s.store := by
  obtain ⟨-, -, hfr, -, -, hst, -, -, -⟩ := h
  exact hst _ (hfr _ hm)

theorem inv_removePair_mem {s : MeshDetector} {x t : Nat} (h : Inv s)
    (hm : (x, t) ∈ s.xrMeshToThreeMesh) : Inv (removePair s x t) := by
  have hinv : Inv s := h
  obtain ⟨n1, n2, hfr, hrf, hlt, hst, hstlt, hsc, hrs⟩ := h
  simp only [removePair]
  refine ⟨keysA_eraseA_nodup n1, keysA_eraseA_nodup n2, ?_, ?_, ?_, ?_, ?_, ?_, ?_⟩
  · intro p hp
    rcases mem_eraseA.1 hp with ⟨hpm, hpx⟩
    refine mem_eraseA.2 ⟨hfr _ hpm, ?_⟩
    intro he
    have he' : p.2 = t := he
    have hpm' : (p.1, t) ∈ s.xrMeshToThreeMesh := by
      rw [← he']
      exact hpm
    exact hpx (inv_fwd_value_inj hinv hpm' hm)
  · intro p hp
    rcases mem_eraseA.1 hp with ⟨hpm, hpt⟩
    refine mem_eraseA.2 ⟨hrf _ hpm, ?_⟩
    intro he
    have he' : p.2 = x := he
    have e₁ : lookupA s.xrMeshToThreeMesh x = some p.1 := by
      rw [← he']
      exact lookupA_of_mem_nodup n1 (hrf _ hpm)
    have e₂ : lookupA s.xrMeshToThreeMesh x = some t :=
      lookupA_of_mem_nodup n1 hm
    rw [e₁] at e₂
    exact hpt (Option.some_injective _ e₂)
  · intro p hp
    exact hlt _ (mem_eraseA.1 hp).1
  · intro p hp
    rw [keysA_modifyA]
    exact hst _ (mem_eraseA.1 hp).1
  · intro p hp
    have hp' : p ∈ modifyA s.store t (fun dm => { dm with disposed := true }) := hp
    rcases mem_keysA.1 (mem_modifyA_keys hp') with ⟨v, hv⟩
    exact hstlt (p.1, v) hv
  · intro u hu
    rcases mem_filter_ne.1 hu with ⟨hus, hut⟩
    rcases mem_keysA.1 (hsc _ hus) with ⟨v, hv⟩
    exact mem_keysA.2 ⟨v, mem_eraseA.2 ⟨hv, hut⟩⟩
  · intro p hp
    rcases mem_eraseA.1 hp with ⟨hpm, hpt⟩
    exact mem_filter_ne.2 ⟨hrs _ hpm, hpt⟩

theorem inv_removePair_not_mem {s : MeshDetector} {x t : Nat} (h : Inv s)
    (hx : x ∉ keysA s.xrMeshToThreeMesh) (ht : t ∉ keysA s.threeMeshToXrMesh) :
    Inv (removePair s x t) := by
  obtain ⟨n1, n2, hfr, hrf, hlt, hst, hstlt, hsc, hrs⟩ := h
  have efwd : eraseA s.xrMeshToThreeMesh x = s.xrMeshToThreeMesh :=
    eraseA_of_not_mem_keysA hx
  have erev : eraseA s.threeMeshToXrMesh t = s.threeMeshToXrMesh :=
    eraseA_of_not_mem_keysA ht
  simp only [removePair, efwd, erev]
  refine ⟨n1, n2, hfr, hrf, hlt, ?_, ?_, ?_, ?_⟩
  · intro p hp
    rw [keysA_modifyA]
    exact hst _ hp
  · intro p hp
    have hp' : p ∈ modifyA s.store t (fun dm => { dm with disposed := true }) := hp
    rcases mem_keysA.1 (mem_modifyA_keys hp') with ⟨v, hv⟩
    exact hstlt (p.1, v) hv
  · intro u hu
    exact hsc _ (mem_filter_ne.1 hu).1
  · intro p hp
    refine mem_filter_ne.2 ⟨hrs _ hp, ?_⟩
    intro he
    exact ht (he ▸ mem_keysA.2 ⟨p.2, hp⟩)

theorem inv_cullRemove {s : MeshDetector} {x : Nat} (h : Inv s) :
    Inv (cullRemove s x) := by
  unfold cullRemove
  cases hl : lookupA s.xrMeshToThreeMesh x with
  | none => exact h
  | some t => exact inv_removePair_mem h (lookupA_mem hl)

theorem inv_createStep {s : MeshDetector} {f : XRFrameT} {x : XRMeshData} (h : Inv s)
    (hnone : lookupA s.xrMeshToThreeMesh x.id = none) : Inv (createStep f s x) := by
  obtain ⟨n1, n2, hfr, hrf, hlt, hst, hstlt, hsc, hrs⟩ := h
  have hxid : x.id ∉ keysA s.xrMeshToThreeMesh := by
    intro hm
    rcases lookupA_isSome_of_mem_keysA hm with ⟨v, hv⟩
    rw [hnone] at hv
    exact Option.noConfusion hv
  have hnrev : s.nextId ∉ keysA s.threeMeshToXrMesh := by
    intro hm
    rcases mem_keysA.1 hm with ⟨v, hv⟩
    exact lt_irrefl _ (hlt _ hv)
  have hnstore : s.nextId ∉ keysA s.store := by
    intro hm
    rcases mem_keysA.1 hm with ⟨v, hv⟩
    exact lt_irrefl _ (hstlt _ hv)
  simp only [createStep, setA_of_not_mem hxid, setA_of_not_mem hnrev,
    setA_of_not_mem hnstore]
  refine ⟨?_, ?_, ?_, ?_, ?_, ?_, ?_, ?_, ?_⟩
  · rw [keysA_append]
    exact nodup_append_single n1 hxid
  · rw [keysA_append]
    exact nodup_append_single n2 hnrev
  · intro p hp
    rcases List.mem_append.1 hp with hp | hp
    · exact List.mem_append.2 (Or.inl (hfr _ hp))
    · rw [List.mem_singleton] at hp
      subst hp
      exact List.mem_append.2 (Or.inr (List.mem_singleton.2 rfl))
  · intro p hp
    rcases List.mem_append.1 hp with hp | hp
    · exact List.mem_append.2 (Or.inl (hrf _ hp))
    · rw [List.mem_singleton] at hp
      subst hp
      exact List.mem_append.2 (Or.inr (List.mem_singleton.2 rfl))
  · intro p hp
    rcases List.mem_append.1 hp with hp | hp
    · exact Nat.lt_succ_of_lt (hlt _ hp)
    · rw [List.mem_singleton] at hp
      subst hp
      exact Nat.lt_succ_self _
  · intro p hp
    rw [keysA_append]
    rcases List.mem_append.1 hp with hp | hp
    · exact List.mem_append.2 (Or.inl (hst _ hp))
    · rw [List.mem_singleton] at hp
      subst hp
      exact List.mem_append.2 (Or.inr (by simp [keysA]))
  · intro p hp
    rcases List.mem_append.1 hp with hp | hp
    · exact Nat.lt_succ_of_lt (hstlt _ hp)
    · rw [List.mem_singleton] at hp
      subst hp
      exact Nat.lt_succ_self _
  · intro u hu
    rw [keysA_append]
    rcases List.mem_append.1 hu with hu | hu
    · exact List.mem_append.2 (Or.inl (hsc _ hu))
    · rw [List.mem_singleton] at hu
      subst hu
      exact List.mem_append.2 (Or.inr (by simp [keysA]))
  · intro p hp
    rcases List.mem_append.1 hp with hp | hp
    · exact List.mem_append.2 (Or.inl (hrs _ hp))
    · rw [List.mem_singleton] at hp
      subst hp
      exact List.mem_append.2 (Or.inr (List.mem_singleton.2 rfl))

theorem inv_updateStep {s : MeshDetector} {f : XRFrameT} {x : XRMeshData}
    (h : Inv s) : Inv (updateStep f s x) := by
  unfold updateStep
  cases hl : lookupA s.xrMeshToThreeMesh x.id with
  | none => exact h
  | some t =>
    obtain ⟨n1, n2, hfr, hrf, hlt, hst, hstlt, hsc, hrs⟩ := h
    refine ⟨n1, n2, hfr, hrf, hlt, ?_, ?_, hsc, hrs⟩
    · intro p hp
      have : p.1 ∈ keysA (modifyA s.store t
          (fun dm => applyPose (lookupA f.poses x.id) { dm with verts := x.verts })) := by
        rw [keysA_modifyA]
        exact hst _ hp
      exact this
    · intro p hp
      have hp' : p ∈ modifyA s.store t
          (fun dm => applyPose (lookupA f.poses x.id) { dm with verts := x.verts }) := hp
      rcases mem_keysA.1 (mem_modifyA_keys hp') with ⟨v, hv⟩
      exact hstlt (p.1, v) hv

theorem inv_processStep {f : XRFrameT} {cP cF : Vec3} {acc : MeshDetector × Nat}
    {x : XRMeshData} (h : Inv acc.1) : Inv (processStep f cP cF acc x).1 := by
  unfold processStep
  dsimp only
  split
  next => exact h
  next =>
    split
    next =>
      split
      next => exact inv_updateStep h
      next hns => exact inv_createStep h (Option.not_isSome_iff_eq_none.1 hns)
    next => exact inv_cullRemove h

theorem inv_processFold (f : XRFrameT) (cP cF : Vec3) :
    ∀ (l : List XRMeshData) (acc : MeshDetector × Nat), Inv acc.1 →
      Inv ((l.foldl (processStep f cP cF) acc).1)
  | [], _, h => h
  | x :: l, acc, h => by
    rw [List.foldl_cons]
    exact inv_processFold f cP cF l _ (inv_processStep h)

/-- The hypothesis under which the deletion pass's fold preserves the
invariant: every not-yet-processed snapshot entry is either still exactly
in the forward map, or has already been fully removed from both maps. -/
def DelCond (s : MeshDetector) (l : List (Nat × Nat)) : Prop :=
  ∀ p ∈ l, lookupA s.xrMeshToThreeMesh p.1 = some p.2 ∨
    (p.1 ∉ keysA s.xrMeshToThreeMesh ∧ p.2 ∉ keysA s.threeMeshToXrMesh)

theorem delCond_removePair {s : MeshDetector} {l : List (Nat × Nat)}
    {p : Nat × Nat} (hcond : DelCond s l) (hp : lookupA s.xrMeshToThreeMesh p.1 = some p.2 ∨
      (p.1 ∉ keysA s.xrMeshToThreeMesh ∧ p.2 ∉ keysA s.threeMeshToXrMesh)) :
    DelCond (removePair s p.1 p.2) l := by
  intro q hq
  have hgoal : lookupA (eraseA s.xrMeshToThreeMesh p.1) q.1 = some q.2 ∨
      (q.1 ∉ keysA (eraseA s.xrMeshToThreeMesh p.1) ∧
       q.2 ∉ keysA (eraseA s.threeMeshToXrMesh p.2)) := by
    rcases hcond q hq with hql | ⟨hq1, hq2⟩
    · by_cases hqp : q.1 = p.1
      · right
        rcases hp with hpl | ⟨hp1, hp2⟩
        · have hq2p : q.2 = p.2 := by
            rw [hqp] at hql
            rw [hql] at hpl
            exact Option.some_injective _ hpl
          constructor
          · rw [hqp]
            exact not_mem_keysA_eraseA_self
          · rw [hq2p]
            exact not_mem_keysA_eraseA_self
        · exfalso
          apply hp1
          rw [← hqp]
          exact mem_keysA_of_lookupA hql
      · left
        rw [lookupA_eraseA_ne hqp]
        exact hql
    · right
      exact ⟨fun hmem => hq1 (keysA_eraseA_subset hmem),
        fun hmem => hq2 (keysA_eraseA_subset hmem)⟩
  exact hgoal

theorem inv_deleteFold (meshes : List XRMeshData) :
    ∀ (l : List (Nat × Nat)) (s : MeshDetector), Inv s → DelCond s l →
      Inv (l.foldl (deleteStep meshes) s)
  | [], _, h, _ => h
  | p :: l, s, h, hcond => by
    rw [List.foldl_cons]
    have hptail : DelCond s l := fun q hq => hcond q (List.mem_cons_of_mem _ hq)
    have hphead := hcond p (List.mem_cons_self _ _)
    unfold deleteStep
    by_cases hfh : feedHas meshes p.1
    · rw [if_pos hfh]
      exact inv_deleteFold meshes l s h hptail
    · rw [if_neg hfh]
      refine inv_deleteFold meshes l _ ?_ (delCond_removePair hptail hphead)
      rcases hphead with hpl | ⟨hp1, hp2⟩
      · exact inv_removePair_mem h (lookupA_mem hpl)
      · exact inv_removePair_not_mem h hp1 hp2

theorem inv_deletePass {meshes : List XRMeshData} {s : MeshDetector}
    (h : Inv s) : Inv (deletePass meshes s) := by
  apply inv_deleteFold meshes _ _ h
  intro p hp
  left
  exact lookupA_of_mem_nodup h.1 hp

/-- Updating only `lastMeshUpdateTime` does not affect the invariant. -/
theorem inv_setTime {s : MeshDetector} {now : ℚ} (h : Inv s) :
    Inv { s with lastMeshUpdateTime := now } := h

theorem inv_updateMeshes {now : ℚ} {rs : Bool} {frame : Option XRFrameT}
    {s : MeshDetector} (h : Inv s) : Inv (updateMeshes now rs frame s) := by
  cases frame with
  | none => exact h
  | some f =>
    show Inv (updateMeshesFrame now rs f s)
    unfold updateMeshesFrame
    cases hdm : f.detectedMeshes with
    | none => exact h
    | some meshes =>
      show Inv (updateMeshesBody now rs f meshes s)
      unfold updateMeshesBody
      by_cases hth : now - s.lastMeshUpdateTime < MESH_UPDATE_INTERVAL_MS
      · rw [if_pos hth]
        exact h
      · rw [if_neg hth]
        show Inv (if rs = true then
            (meshes.foldl
              (processStep f (getCameraInfo f).position (getCameraInfo f).forward)
              (deletePass meshes { s with lastMeshUpdateTime := now }, 0)).1
          else { s with lastMeshUpdateTime := now })
        cases rs with
        | true =>
          rw [if_pos rfl]
          exact inv_processFold f _ _ meshes _ (inv_deletePass (inv_setTime h))
        | false =>
          rw [if_neg Bool.false_ne_true]
          exact inv_setTime h

theorem inv_initialState (showDebug : Bool) : Inv (initialState showDebug) := by
  cases showDebug <;> decide

theorem inv_runTicks :
    ∀ (inputs : List TickInput) (s : MeshDetector), Inv s → Inv (runTicks inputs s)
  | [], _, h => h
  | i :: inputs, s, h => by
    rw [runTicks, List.foldl_cons]
    exact inv_runTicks inputs _ (inv_updateMeshes h)

/-- The bijection property as stated by the spec: the two maps are mutually
inverse under lookup, with no orphaned entry in either direction. -/
def MapsInverse (s : MeshDetector) : Prop :=
  (∀ x t, lookupA s.xrMeshToThreeMesh x = some t →
    lookupA s.threeMeshToXrMesh t = some x) ∧
  (∀ t x, lookupA s.threeMeshToXrMesh t = some x →
    lookupA s.xrMeshToThreeMesh x = some t)

theorem mapsInverse_of_inv {s : MeshDetector} (h : Inv s) : MapsInverse s := by
  obtain ⟨n1, n2, hfr, hrf, -, -, -, -, -⟩ := h
  constructor
  · intro x t hx
    exact lookupA_of_mem_nodup n2 (hfr _ (lookupA_mem hx))
  · intro t x ht
    exact lookupA_of_mem_nodup n1 (hrf _ (lookupA_mem ht))

/-! ### Effect lemmas for the reconciliation loop -/

section SetALookup

variable {β : Type _}

theorem lookupA_setA_self {l : List (Nat × β)} {k : Nat} {v : β} :
    lookupA (setA l k v) k = some v := by
  induction l with
  | nil => rw [setA, lookupA, if_pos rfl]
  | cons p l ih =>
    rw [setA]
    by_cases hp : p.1 = k
    · rw [if_pos hp, lookupA, if_pos rfl]
    · rw [if_neg hp, lookupA, if_neg hp]
      exact ih

theorem lookupA_setA_ne {l : List (Nat × β)} {k k' : Nat} {v : β} (h : k' ≠ k) :
    lookupA (setA l k v) k' = lookupA l k' := by
  induction l with
  | nil =>
    show (if k = k' then some v else none) = none
    rw [if_neg (fun he => h he.symm)]
  | cons p l ih =>
    rw [setA]
    by_cases hp : p.1 = k
    · rw [if_pos hp, lookupA, lookupA, if_neg (fun he => h he.symm),
        if_neg (by rw [hp]; exact fun he => h he.symm)]
    · rw [if_neg hp, lookupA, lookupA]
      by_cases hp' : p.1 = k'
      · rw [if_pos hp', if_pos hp']
      · rw [if_neg hp', if_neg hp']
        exact ih

theorem lookupA_eraseA_none {l : List (Nat × β)} {k k' : Nat}
    (h : lookupA l k' = none) : lookupA (eraseA l k) k' = none := by
  by_cases hk : k' = k
  · rw [hk]
    exact lookupA_eraseA_self
  · rw [lookupA_eraseA_ne hk]
    exact h

end SetALookup

/-- The update `updateVertices` followed by `updateMeshPose` never touches the
`disposed` flag. -/
theorem applyPose_disposed (pose : Option Pose) (dm : DetectedMeshData) :
    (applyPose pose dm).disposed = dm.disposed := by
  cases pose <;> rfl

/-- The update `updateVertices` followed by `updateMeshPose` never touches the
`physicsRegistered` flag. -/
theorem applyPose_physics (pose : Option Pose) (dm : DetectedMeshData) :
    (applyPose pose dm).physicsRegistered = dm.physicsRegistered := by
  cases pose <;> rfl

theorem cullRemove_eq_some {s : MeshDetector} {xid t' : Nat}
    (h : lookupA s.xrMeshToThreeMesh xid = some t') :
    cullRemove s xid = removePair s xid t' := by
  unfold cullRemove
  rw [h]

theorem cullRemove_eq_none {s : MeshDetector} {xid : Nat}
    (h : lookupA s.xrMeshToThreeMesh xid = none) : cullRemove s xid = s := by
  unfold cullRemove
  rw [h]

theorem updateStep_eq_some {f : XRFrameT} {s : MeshDetector} {x : XRMeshData}
    {t' : Nat} (h : lookupA s.xrMeshToThreeMesh x.id = some t') :
    updateStep f s x = { s with store := modifyA s.store t' (fun dm => applyPose (lookupA f.poses x.id) { dm with verts := x.verts }) } := by
  unfold updateStep
  rw [h]

theorem updateStep_eq_none {f : XRFrameT} {s : MeshDetector} {x : XRMeshData}
    (h : lookupA s.xrMeshToThreeMesh x.id = none) : updateStep f s x = s := by
  unfold updateStep
  rw [h]

/-- Case analysis of one loop iteration: skipped by the processed-count
break, culled (with teardown of a mapped mesh), updated, or created. -/
theorem processStep_cases (f : XRFrameT) (cP cF : Vec3) (acc : MeshDetector × Nat)
    (x : XRMeshData) :
    (MAX_MESHES_PER_FRAME ≤ acc.2 ∧ processStep f cP cF acc x = acc) ∨
    (acc.2 < MAX_MESHES_PER_FRAME ∧ shouldShowMeshInView x cP cF f = false ∧
      processStep f cP cF acc x = (cullRemove acc.1 x.id, acc.2)) ∨
    (acc.2 < MAX_MESHES_PER_FRAME ∧ shouldShowMeshInView x cP cF f = true ∧
      (lookupA acc.1.xrMeshToThreeMesh x.id).isSome = true ∧
      processStep f cP cF acc x = (updateStep f acc.1 x, acc.2 + 1)) ∨
    (acc.2 < MAX_MESHES_PER_FRAME ∧ shouldShowMeshInView x cP cF f = true ∧
      lookupA acc.1.xrMeshToThreeMesh x.id = none ∧
      processStep f cP cF acc x = (createStep f acc.1 x, acc.2 + 1)) := by
  unfold processStep
  dsimp only
  by_cases hcnt : MAX_MESHES_PER_FRAME ≤ acc.2
  · rw [if_pos hcnt]
    exact Or.inl ⟨hcnt, rfl⟩
  · rw [if_neg hcnt]
    have hlt := Nat.lt_of_not_le hcnt
    cases hvis : shouldShowMeshInView x cP cF f with
    | false =>
      rw [if_neg Bool.false_ne_true]
      exact Or.inr (Or.inl ⟨hlt, rfl, rfl⟩)
    | true =>
      rw [if_pos rfl]
      by_cases hm : (lookupA acc.1.xrMeshToThreeMesh x.id).isSome = true
      · rw [if_pos hm]
        exact Or.inr (Or.inr (Or.inl ⟨hlt, rfl, hm, rfl⟩))
      · rw [if_neg hm]
        exact Or.inr (Or.inr (Or.inr ⟨hlt, rfl,
          Option.not_isSome_iff_eq_none.1 hm, rfl⟩))

/-- One loop iteration can only add to the processed count, and by at most
one. -/
theorem processStep_count (f : XRFrameT) (cP cF : Vec3) (acc : MeshDetector × Nat)
    (x : XRMeshData) :
    acc.2 ≤ (processStep f cP cF acc x).2 ∧
    (processStep f cP cF acc x).2 ≤ acc.2 + 1 := by
  rcases processStep_cases f cP cF acc x with ⟨-, he⟩ | ⟨-, -, he⟩ | ⟨-, -, -, he⟩ |
      ⟨-, -, -, he⟩ <;>
    rw [he] <;> omega

theorem processFold_count (f : XRFrameT) (cP cF : Vec3) :
    ∀ (l : List XRMeshData) (acc : MeshDetector × Nat),
      (l.foldl (processStep f cP cF) acc).2 ≤ acc.2 + l.length
  | [], acc => Nat.le_refl _
  | x :: l, acc => by
    rw [List.foldl_cons]
    have h1 := (processStep_count f cP cF acc x).2
    have h2 := processFold_count f cP cF l (processStep f cP cF acc x)
    simpa [List.length_cons] using Nat.le_trans h2 (by omega)

/-- A loop iteration over a mesh with a different handle does not change
what the forward map stores for this handle. -/
theorem processStep_fwd_stable {f : XRFrameT} {cP cF : Vec3}
    {acc : MeshDetector × Nat} {x : XRMeshData} {xid : Nat} (hne : xid ≠ x.id) :
    lookupA (processStep f cP cF acc x).1.xrMeshToThreeMesh xid =
      lookupA acc.1.xrMeshToThreeMesh xid := by
  rcases processStep_cases f cP cF acc x with ⟨-, he⟩ | ⟨-, -, he⟩ | ⟨-, -, -, he⟩ |
      ⟨-, -, -, he⟩
  · rw [he]
  · rw [he]
    show lookupA (cullRemove acc.1 x.id).xrMeshToThreeMesh xid = _
    unfold cullRemove
    cases lookupA acc.1.xrMeshToThreeMesh x.id with
    | none => rfl
    | some t => exact lookupA_eraseA_ne hne
  · rw [he]
    show lookupA (updateStep f acc.1 x).xrMeshToThreeMesh xid = _
    unfold updateStep
    cases lookupA acc.1.xrMeshToThreeMesh x.id with
    | none => rfl
    | some t => rfl
  · rw [he]
    exact lookupA_setA_ne hne

/-- A loop iteration leaves the heap record of `t` untouched, provided `t`
is a live id (below the allocation counter) that is not the
`DetectedMesh` of the iteration's own handle. -/
theorem processStep_store_stable {f : XRFrameT} {cP cF : Vec3}
    {acc : MeshDetector × Nat} {x : XRMeshData} {t : Nat}
    (ht : t < acc.1.nextId)
    (hsafe : ∀ t', lookupA acc.1.xrMeshToThreeMesh x.id = some t' → t' ≠ t) :
    lookupA (processStep f cP cF acc x).1.store t = lookupA acc.1.store t ∧
      t < (processStep f cP cF acc x).1.nextId := by
  rcases processStep_cases f cP cF acc x with ⟨-, he⟩ | ⟨-, -, he⟩ | ⟨-, -, -, he⟩ |
      ⟨-, -, -, he⟩ <;> rw [he]
  · exact ⟨rfl, ht⟩
  · show lookupA (cullRemove acc.1 x.id).store t = _ ∧ t < (cullRemove acc.1 x.id).nextId
    cases hl : lookupA acc.1.xrMeshToThreeMesh x.id with
    | none =>
      rw [cullRemove_eq_none hl]
      exact ⟨rfl, ht⟩
    | some t' =>
      rw [cullRemove_eq_some hl]
      simp only [removePair]
      exact ⟨lookupA_modifyA_ne (fun he' => hsafe t' hl he'.symm), ht⟩
  · show lookupA (updateStep f acc.1 x).store t = _ ∧ t < (updateStep f acc.1 x).nextId
    cases hl : lookupA acc.1.xrMeshToThreeMesh x.id with
    | none =>
      rw [updateStep_eq_none hl]
      exact ⟨rfl, ht⟩
    | some t' =>
      rw [updateStep_eq_some hl]
      dsimp only
      exact ⟨lookupA_modifyA_ne (fun he' => hsafe t' hl he'.symm), ht⟩
  · exact ⟨lookupA_setA_ne (Nat.ne_of_lt ht), Nat.lt_succ_of_lt ht⟩

theorem mem_keysA_setA {β : Type _} {l : List (Nat × β)} {k u : Nat} {v : β}
    (h : u ∈ keysA (setA l k v)) : u ∈ keysA l ∨ u = k := by
  induction l with
  | nil =>
    right
    simpa [setA, keysA] using h
  | cons p l ih =>
    rw [setA] at h
    by_cases hp : p.1 = k
    · rw [if_pos hp, keysA, List.map_cons, List.mem_cons] at h
      rcases h with h | h
      · exact Or.inr h
      · exact Or.inl (by rw [keysA, List.map_cons]; exact List.mem_cons_of_mem _ h)
    · rw [if_neg hp, keysA, List.map_cons, List.mem_cons] at h
      rcases h with h | h
      · exact Or.inl (by rw [keysA, List.map_cons, h]; exact List.mem_cons_self _ _)
      · rcases ih h with h | h
        · exact Or.inl (by rw [keysA, List.map_cons]; exact List.mem_cons_of_mem _ h)
        · exact Or.inr h

/-- The observable state of a torn-down `DetectedMesh` `t`: no reverse-map
entry, detached from the scene, and a live heap id whose record has been
`dispose()`d. -/
def DeadAt (s : MeshDetector) (t : Nat) : Prop :=
  t ∉ keysA s.threeMeshToXrMesh ∧ t ∉ s.scene ∧ t < s.nextId ∧
  (∃ dm, lookupA s.store t = some dm ∧ dm.disposed = true)

theorem disposed_modifyA {store : List (Nat × DetectedMeshData)} {t k : Nat}
    {g : DetectedMeshData → DetectedMeshData}
    (hg : ∀ dm, (g dm).disposed = dm.disposed ∨ (g dm).disposed = true)
    (h : ∃ dm, lookupA store t = some dm ∧ dm.disposed = true) :
    ∃ dm, lookupA (modifyA store k g) t = some dm ∧ dm.disposed = true := by
  rcases h with ⟨dm, hdm, hd⟩
  by_cases hk : t = k
  · subst hk
    refine ⟨g dm, ?_, ?_⟩
    · rw [lookupA_modifyA_self, hdm]
      rfl
    · rcases hg dm with h | h
      · rw [h, hd]
      · exact h
  · exact ⟨dm, by rw [lookupA_modifyA_ne hk]; exact hdm, hd⟩

theorem deadAt_removePair {s : MeshDetector} {t xid t'' : Nat} (h : DeadAt s t) :
    DeadAt (removePair s xid t'') t := by
  obtain ⟨h1, h2, h3, h4⟩ := h
  unfold DeadAt
  simp only [removePair]
  refine ⟨?_, ?_, h3, ?_⟩
  · intro hmem
    exact h1 (keysA_eraseA_subset hmem)
  · intro hmem
    exact h2 (mem_filter_ne.1 hmem).1
  · exact disposed_modifyA (fun dm => Or.inr rfl) h4

theorem deadAt_processStep {f : XRFrameT} {cP cF : Vec3} {acc : MeshDetector × Nat}
    {x : XRMeshData} {t : Nat} (h : DeadAt acc.1 t) :
    DeadAt (processStep f cP cF acc x).1 t := by
  rcases processStep_cases f cP cF acc x with ⟨-, he⟩ | ⟨-, -, he⟩ | ⟨-, -, -, he⟩ |
      ⟨-, -, -, he⟩ <;> rw [he]
  · exact h
  · show DeadAt (cullRemove acc.1 x.id) t
    cases hl : lookupA acc.1.xrMeshToThreeMesh x.id with
    | none =>
      rw [cullRemove_eq_none hl]
      exact h
    | some t' =>
      rw [cullRemove_eq_some hl]
      exact deadAt_removePair h
  · show DeadAt (updateStep f acc.1 x) t
    cases hl : lookupA acc.1.xrMeshToThreeMesh x.id with
    | none =>
      rw [updateStep_eq_none hl]
      exact h
    | some t' =>
      rw [updateStep_eq_some hl]
      obtain ⟨h1, h2, h3, h4⟩ := h
      unfold DeadAt
      dsimp only
      refine ⟨h1, h2, h3, ?_⟩
      refine disposed_modifyA (fun dm => Or.inl ?_) h4
      rw [applyPose_disposed]
  · show DeadAt (createStep f acc.1 x) t
    obtain ⟨h1, h2, h3, h4⟩ := h
    unfold DeadAt
    simp only [createStep]
    refine ⟨?_, ?_, Nat.lt_succ_of_lt h3, ?_⟩
    · intro hmem
      rcases mem_keysA_setA hmem with hmem | hmem
      · exact h1 hmem
      · exact Nat.ne_of_lt h3 hmem
    · intro hmem
      rcases List.mem_append.1 hmem with hmem | hmem
      · exact h2 hmem
      · exact Nat.ne_of_lt h3 (List.mem_singleton.1 hmem)
    · rcases h4 with ⟨dm, hdm, hd⟩
      exact ⟨dm, by rw [lookupA_setA_ne (Nat.ne_of_lt h3)]; exact hdm, hd⟩

theorem deadAt_deleteStep {meshes : List XRMeshData} {s : MeshDetector}
    {p : Nat × Nat} {t : Nat} (h : DeadAt s t) : DeadAt (deleteStep meshes s p) t := by
  unfold deleteStep
  split
  next => exact h
  next => exact deadAt_removePair h

theorem deleteStep_fwd_none {meshes : List XRMeshData} {s : MeshDetector}
    {p : Nat × Nat} {xid : Nat} (h : lookupA s.xrMeshToThreeMesh xid = none) :
    lookupA (deleteStep meshes s p).xrMeshToThreeMesh xid = none := by
  unfold deleteStep
  split
  next => exact h
  next =>
    show lookupA (eraseA s.xrMeshToThreeMesh p.1) xid = none
    exact lookupA_eraseA_none h

theorem deleteFold_dead (meshes : List XRMeshData) :
    ∀ (l : List (Nat × Nat)) (s : MeshDetector) (xid t : Nat),
      lookupA s.xrMeshToThreeMesh xid = none → DeadAt s t →
      lookupA (l.foldl (deleteStep meshes) s).xrMeshToThreeMesh xid = none ∧
        DeadAt (l.foldl (deleteStep meshes) s) t
  | [], _, _, _, hn, hd => ⟨hn, hd⟩
  | p :: l, s, xid, t, hn, hd => by
    rw [List.foldl_cons]
    exact deleteFold_dead meshes l _ xid t (deleteStep_fwd_none hn) (deadAt_deleteStep hd)

theorem processFold_dead (f : XRFrameT) (cP cF : Vec3) :
    ∀ (l : List XRMeshData) (acc : MeshDetector × Nat) (t : Nat),
      DeadAt acc.1 t → DeadAt ((l.foldl (processStep f cP cF) acc)).1 t
  | [], _, _, hd => hd
  | x :: l, acc, t, hd => by
    rw [List.foldl_cons]
    exact processFold_dead f cP cF l _ t (deadAt_processStep hd)

theorem processFold_fwd_stable (f : XRFrameT) (cP cF : Vec3) :
    ∀ (l : List XRMeshData) (acc : MeshDetector × Nat) (xid : Nat),
      (∀ m ∈ l, m.id ≠ xid) →
      lookupA ((l.foldl (processStep f cP cF) acc)).1.xrMeshToThreeMesh xid =
        lookupA acc.1.xrMeshToThreeMesh xid
  | [], _, _, _ => rfl
  | x :: l, acc, xid, hne => by
    rw [List.foldl_cons]
    rw [processFold_fwd_stable f cP cF l _ xid
      (fun m hm => hne m (List.mem_cons_of_mem _ hm))]
    exact processStep_fwd_stable (fun he => hne x (List.mem_cons_self _ _) he.symm)

theorem processFold_alive (f : XRFrameT) (cP cF : Vec3) :
    ∀ (l : List XRMeshData) (acc : MeshDetector × Nat) (xid t : Nat),
      Inv acc.1 → (∀ m ∈ l, m.id ≠ xid) →
      lookupA acc.1.xrMeshToThreeMesh xid = some t →
      lookupA ((l.foldl (processStep f cP cF) acc)).1.xrMeshToThreeMesh xid = some t ∧
        lookupA ((l.foldl (processStep f cP cF) acc)).1.store t = lookupA acc.1.store t
  | [], _, _, _, _, _, hl => ⟨hl, rfl⟩
  | x :: l, acc, xid, t, hinv, hne, hl => by
    rw [List.foldl_cons]
    have hxne : xid ≠ x.id := fun he => hne x (List.mem_cons_self _ _) he.symm
    have hfwd : lookupA (processStep f cP cF acc x).1.xrMeshToThreeMesh xid = some t := by
      rw [processStep_fwd_stable hxne]
      exact hl
    have hsafe : ∀ t', lookupA acc.1.xrMeshToThreeMesh x.id = some t' → t' ≠ t := by
      intro t' hlx he
      subst he
      exact hxne (inv_fwd_value_inj hinv (lookupA_mem hl) (lookupA_mem hlx))
    have ht : t < acc.1.nextId := inv_fwd_value_lt hinv (lookupA_mem hl)
    have hstore := @processStep_store_stable f cP cF acc x t ht hsafe
    have hrec := processFold_alive f cP cF l (processStep f cP cF acc x) xid t
      (inv_processStep hinv) (fun m hm => hne m (List.mem_cons_of_mem _ hm)) hfwd
    exact ⟨hrec.1, by rw [hrec.2, hstore.1]⟩

theorem deleteFold_fwd_stable (meshes : List XRMeshData) :
    ∀ (l : List (Nat × Nat)) (s : MeshDetector) (xid : Nat),
      (∀ p ∈ l, (p : Nat × Nat).1 ≠ xid) →
      lookupA (l.foldl (deleteStep meshes) s).xrMeshToThreeMesh xid =
        lookupA s.xrMeshToThreeMesh xid
  | [], _, _, _ => rfl
  | p :: l, s, xid, hne => by
    rw [List.foldl_cons]
    rw [deleteFold_fwd_stable meshes l _ xid (fun q hq => hne q (List.mem_cons_of_mem _ hq))]
    unfold deleteStep
    split
    next => rfl
    next =>
      show lookupA (eraseA s.xrMeshToThreeMesh p.1) xid = _
      exact lookupA_eraseA_ne (fun he => hne p (List.mem_cons_self _ _) he.symm)

theorem deleteFold_fwd_kept (meshes : List XRMeshData) :
    ∀ (l : List (Nat × Nat)) (s : MeshDetector) (xid : Nat),
      feedHas meshes xid = true →
      lookupA (l.foldl (deleteStep meshes) s).xrMeshToThreeMesh xid =
        lookupA s.xrMeshToThreeMesh xid
  | [], _, _, _ => rfl
  | p :: l, s, xid, hkept => by
    rw [List.foldl_cons]
    rw [deleteFold_fwd_kept meshes l _ xid hkept]
    unfold deleteStep
    by_cases hfh : feedHas meshes p.1
    · rw [if_pos hfh]
    · rw [if_neg hfh]
      show lookupA (eraseA s.xrMeshToThreeMesh p.1) xid = _
      refine lookupA_eraseA_ne (fun he => ?_)
      rw [he] at hkept
      exact hfh hkept

theorem deleteFold_store_safe (meshes : List XRMeshData) :
    ∀ (l : List (Nat × Nat)) (s : MeshDetector) (t : Nat),
      (∀ p ∈ l, feedHas meshes (p : Nat × Nat).1 = false → p.2 ≠ t) →
      lookupA (l.foldl (deleteStep meshes) s).store t = lookupA s.store t
  | [], _, _, _ => rfl
  | p :: l, s, t, hsafe => by
    rw [List.foldl_cons]
    rw [deleteFold_store_safe meshes l _ t (fun q hq => hsafe q (List.mem_cons_of_mem _ hq))]
    unfold deleteStep
    by_cases hfh : feedHas meshes p.1
    · rw [if_pos hfh]
    · rw [if_neg hfh]
      show lookupA (modifyA s.store p.2 (fun dm => { dm with disposed := true })) t = _
      exact lookupA_modifyA_ne
        (fun he => hsafe p (List.mem_cons_self _ _) (Bool.eq_false_iff.2 hfh) he.symm)

theorem feedHas_true_iff {meshes : List XRMeshData} {xid : Nat} :
    feedHas meshes xid = true ↔ ∃ m ∈ meshes, m.id = xid := by
  simp [feedHas]

theorem feedHas_false_iff {meshes : List XRMeshData} {xid : Nat} :
    feedHas meshes xid = false ↔ ∀ m ∈ meshes, m.id ≠ xid := by
  simp [feedHas]

theorem applyPose_material (pose : Option Pose) (dm : DetectedMeshData) :
    (applyPose pose dm).material = dm.material := by
  cases pose <;> rfl

theorem applyPose_verts (pose : Option Pose) (dm : DetectedMeshData) :
    (applyPose pose dm).verts = dm.verts := by
  cases pose <;> rfl

theorem createMesh_material (f : XRFrameT) (s : MeshDetector) (x : XRMeshData) :
    (createMesh f s x).material =
      selectMaterial s.debugMaterialLabels s.fallbackDebugMaterial x.semanticLabel := by
  unfold createMesh
  rw [applyPose_material]
  rfl

theorem createMesh_verts (f : XRFrameT) (s : MeshDetector) (x : XRMeshData) :
    (createMesh f s x).verts = x.verts := by
  unfold createMesh
  rw [applyPose_verts]
  rfl

theorem createMesh_physics (f : XRFrameT) (s : MeshDetector) (x : XRMeshData) :
    (createMesh f s x).physicsRegistered = false := by
  unfold createMesh
  rw [applyPose_physics]
  rfl

/-- The `DetectedMesh` record stored for a freshly created mesh. -/
def createdRecord (f : XRFrameT) (s : MeshDetector) (x : XRMeshData) :
    DetectedMeshData :=
  if s.physics then { createMesh f s x with physicsRegistered := true }
  else createMesh f s x

theorem createStep_lookup_self (f : XRFrameT) (s : MeshDetector) (x : XRMeshData) :
    lookupA (createStep f s x).store s.nextId = some (createdRecord f s x) := by
  show lookupA (setA s.store s.nextId (createdRecord f s x)) s.nextId = _
  exact lookupA_setA_self

theorem createStep_fwd_self (f : XRFrameT) (s : MeshDetector) (x : XRMeshData) :
    lookupA (createStep f s x).xrMeshToThreeMesh x.id = some s.nextId := by
  show lookupA (setA s.xrMeshToThreeMesh x.id s.nextId) x.id = _
  exact lookupA_setA_self

theorem createdRecord_material (f : XRFrameT) (s : MeshDetector) (x : XRMeshData) :
    (createdRecord f s x).material =
      selectMaterial s.debugMaterialLabels s.fallbackDebugMaterial x.semanticLabel := by
  unfold createdRecord
  by_cases hp : s.physics
  · rw [if_pos hp]
    exact createMesh_material f s x
  · rw [if_neg hp]
    exact createMesh_material f s x

theorem createdRecord_verts (f : XRFrameT) (s : MeshDetector) (x : XRMeshData) :
    (createdRecord f s x).verts = x.verts := by
  unfold createdRecord
  by_cases hp : s.physics
  · rw [if_pos hp]
    exact createMesh_verts f s x
  · rw [if_neg hp]
    exact createMesh_verts f s x

theorem createdRecord_physics (f : XRFrameT) (s : MeshDetector) (x : XRMeshData) :
    (createdRecord f s x).physicsRegistered = s.physics := by
  unfold createdRecord
  cases hp : s.physics
  · rw [if_neg Bool.false_ne_true]
    exact createMesh_physics f s x
  · rw [if_pos rfl]

/-- The configuration fields (`debugMaterials`, `fallbackDebugMaterial`,
`physics`) that `updateMeshes` never writes. -/
def SameConfig (s u : MeshDetector) : Prop :=
  u.debugMaterialLabels = s.debugMaterialLabels ∧
  u.fallbackDebugMaterial = s.fallbackDebugMaterial ∧
  u.physics = s.physics

theorem sameConfig_refl (s : MeshDetector) : SameConfig s s :=
  ⟨rfl, rfl, rfl⟩

theorem sameConfig_trans {s u v : MeshDetector} (h1 : SameConfig s u)
    (h2 : SameConfig u v) : SameConfig s v :=
  ⟨h2.1.trans h1.1, h2.2.1.trans h1.2.1, h2.2.2.trans h1.2.2⟩

theorem sameConfig_removePair {s : MeshDetector} {xid t : Nat} :
    SameConfig s (removePair s xid t) :=
  ⟨rfl, rfl, rfl⟩

theorem sameConfig_processStep {f : XRFrameT} {cP cF : Vec3}
    {acc : MeshDetector × Nat} {x : XRMeshData} :
    SameConfig acc.1 (processStep f cP cF acc x).1 := by
  rcases processStep_cases f cP cF acc x with ⟨-, he⟩ | ⟨-, -, he⟩ | ⟨-, -, -, he⟩ |
      ⟨-, -, -, he⟩ <;> rw [he]
  · exact sameConfig_refl _
  · show SameConfig acc.1 (cullRemove acc.1 x.id)
    cases hl : lookupA acc.1.xrMeshToThreeMesh x.id with
    | none =>
      rw [cullRemove_eq_none hl]
      exact sameConfig_refl _
    | some t' =>
      rw [cullRemove_eq_some hl]
      exact sameConfig_removePair
  · show SameConfig acc.1 (updateStep f acc.1 x)
    cases hl : lookupA acc.1.xrMeshToThreeMesh x.id with
    | none =>
      rw [updateStep_eq_none hl]
      exact sameConfig_refl _
    | some t' =>
      rw [updateStep_eq_some hl]
      exact ⟨rfl, rfl, rfl⟩
  · exact ⟨rfl, rfl, rfl⟩

theorem sameConfig_processFold (f : XRFrameT) (cP cF : Vec3) :
    ∀ (l : List XRMeshData) (acc : MeshDetector × Nat),
      SameConfig acc.1 ((l.foldl (processStep f cP cF) acc)).1
  | [], _ => sameConfig_refl _
  | x :: l, acc => by
    rw [List.foldl_cons]
    exact sameConfig_trans sameConfig_processStep
      (sameConfig_processFold f cP cF l _)

theorem sameConfig_deleteStep {meshes : List XRMeshData} {s : MeshDetector}
    {p : Nat × Nat} : SameConfig s (deleteStep meshes s p) := by
  unfold deleteStep
  split
  next => exact sameConfig_refl _
  next => exact sameConfig_removePair

theorem sameConfig_deleteFold (meshes : List XRMeshData) :
    ∀ (l : List (Nat × Nat)) (s : MeshDetector),
      SameConfig s (l.foldl (deleteStep meshes) s)
  | [], _ => sameConfig_refl _
  | p :: l, s => by
    rw [List.foldl_cons]
    exact sameConfig_trans sameConfig_deleteStep (sameConfig_deleteFold meshes l _)

/-- Tearing a mapped pair down yields exactly the dead observable state. -/
theorem removePair_dead {s : MeshDetector} {x t : Nat} (hinv : Inv s)
    (hl : lookupA s.xrMeshToThreeMesh x = some t) :
    lookupA (removePair s x t).xrMeshToThreeMesh x = none ∧
      DeadAt (removePair s x t) t := by
  constructor
  · show lookupA (eraseA s.xrMeshToThreeMesh x) x = none
    exact lookupA_eraseA_self
  · unfold DeadAt
    simp only [removePair]
    refine ⟨not_mem_keysA_eraseA_self, ?_, ?_, ?_⟩
    · intro hmem
      exact (mem_filter_ne.1 hmem).2 rfl
    · exact inv_fwd_value_lt hinv (lookupA_mem hl)
    · rcases lookupA_isSome_of_mem_keysA (inv_fwd_value_store hinv (lookupA_mem hl))
        with ⟨dm, hdm⟩
      refine ⟨{ dm with disposed := true }, ?_, rfl⟩
      rw [lookupA_modifyA_self, hdm]
      rfl

/-- Effect of the deletion pass on an entry whose `XRMesh` has left the
feed: the forward entry is gone and its `DetectedMesh` is dead. -/
theorem deletePass_removed {meshes : List XRMeshData} {s : MeshDetector}
    {x t : Nat} (hinv : Inv s) (hl : lookupA s.xrMeshToThreeMesh x = some t)
    (habs : feedHas meshes x = false) :
    lookupA (deletePass meshes s).xrMeshToThreeMesh x = none ∧
      DeadAt (deletePass meshes s) t := by
  obtain ⟨l₁, l₂, hsplit⟩ := List.append_of_mem (lookupA_mem hl)
  unfold deletePass
  rw [hsplit, List.foldl_append, List.foldl_cons]
  have hnd : (keysA (l₁ ++ (x, t) :: l₂)).Nodup := by
    rw [← hsplit]
    exact hinv.1
  have hx1 : ∀ p ∈ l₁, (p : Nat × Nat).1 ≠ x := by
    intro p hp he
    have hxin : x ∈ List.map Prod.fst l₁ := by
      rw [← he]
      exact List.mem_map_of_mem _ hp
    rw [keysA, List.map_append, List.map_cons] at hnd
    have hxin2 : x ∈ (x, t).1 :: List.map Prod.fst l₂ := List.mem_cons_self _ _
    exact List.disjoint_of_nodup_append hnd hxin hxin2
  have hcond1 : DelCond s l₁ := by
    intro p hp
    left
    exact lookupA_of_mem_nodup hinv.1 (by rw [hsplit]; exact List.mem_append.2 (Or.inl hp))
  have hinv1 : Inv (l₁.foldl (deleteStep meshes) s) :=
    inv_deleteFold meshes l₁ s hinv hcond1
  have hl1 : lookupA (l₁.foldl (deleteStep meshes) s).xrMeshToThreeMesh x = some t := by
    rw [deleteFold_fwd_stable meshes l₁ s x hx1]
    exact hl
  have hstep : deleteStep meshes (l₁.foldl (deleteStep meshes) s) (x, t) =
      removePair (l₁.foldl (deleteStep meshes) s) x t := by
    unfold deleteStep
    rw [if_neg (by rw [habs]; exact Bool.false_ne_true)]
  rw [hstep]
  rcases removePair_dead hinv1 hl1 with ⟨hnone2, hdead2⟩
  exact deleteFold_dead meshes l₂ _ x t hnone2 hdead2

/-- In a duplicate-free feed list, every mesh other than `x` in the split
around `x` has a different handle. -/
theorem split_ids_ne {meshes l₁ l₂ : List XRMeshData} {x : XRMeshData}
    (hnd : (meshes.map XRMeshData.id).Nodup) (hsplit : meshes = l₁ ++ x :: l₂) :
    (∀ m ∈ l₁, m.id ≠ x.id) ∧ (∀ m ∈ l₂, m.id ≠ x.id) := by
  subst hsplit
  rw [List.map_append, List.map_cons] at hnd
  have hdisj := List.disjoint_of_nodup_append hnd
  have h2 := (List.nodup_append.1 hnd).2.1
  constructor
  · intro m hm he
    exact hdisj (List.mem_map_of_mem _ hm) (by rw [he]; exact List.mem_cons_self _ _)
  · intro m hm he
    rw [List.nodup_cons] at h2
    exact h2.1 (by rw [← he]; exact List.mem_map_of_mem _ hm)

/-- The throttle gate (source lines 83–89): a call within
`MESH_UPDATE_INTERVAL_MS` of the last performed update returns with the
state untouched. -/
theorem updateMeshes_throttled {now : ℚ} {rs : Bool} {frame : Option XRFrameT}
    {s : MeshDetector} (h : now - s.lastMeshUpdateTime < MESH_UPDATE_INTERVAL_MS) :
    updateMeshes now rs frame s = s := by
  cases frame with
  | none => rfl
  | some f =>
    show updateMeshesFrame now rs f s = s
    unfold updateMeshesFrame
    cases hdm : f.detectedMeshes with
    | none => rfl
    | some meshes =>
      show updateMeshesBody now rs f meshes s = s
      unfold updateMeshesBody
      rw [if_pos h]

/-- A call with no frame, or a frame without a detected-mesh set, returns
before the throttle gate: nothing at all changes. -/
theorem updateMeshes_noFrame {now : ℚ} {rs : Bool} {s : MeshDetector} :
    updateMeshes now rs none s = s := rfl

theorem updateMeshes_noMeshes {now : ℚ} {rs : Bool} {f : XRFrameT}
    {s : MeshDetector} (h : f.detectedMeshes = none) :
    updateMeshes now rs (some f) s = s := by
  show updateMeshesFrame now rs f s = s
  unfold updateMeshesFrame
  rw [h]

/-- An eligible call that finds no reference space returns right after
stamping `lastMeshUpdateTime`. -/
theorem updateMeshes_noRefSpace {now : ℚ} {f : XRFrameT} {meshes : List XRMeshData}
    {s : MeshDetector} (hm : f.detectedMeshes = some meshes)
    (hth : ¬(now - s.lastMeshUpdateTime < MESH_UPDATE_INTERVAL_MS)) :
    updateMeshes now false (some f) s = { s with lastMeshUpdateTime := now } := by
  show updateMeshesFrame now false f s = _
  unfold updateMeshesFrame
  cases hdm : f.detectedMeshes with
  | none =>
    rw [hm] at hdm
    exact Option.noConfusion hdm
  | some meshes2 =>
    rw [hm] at hdm
    cases hdm
    show updateMeshesBody now false f meshes s = _
    unfold updateMeshesBody
    rw [if_neg hth]
    rfl

/-- Unfolding of an eligible call with an available reference space. -/
theorem updateMeshes_eligible {now : ℚ} {f : XRFrameT} {meshes : List XRMeshData}
    {s : MeshDetector} (hm : f.detectedMeshes = some meshes)
    (hth : ¬(now - s.lastMeshUpdateTime < MESH_UPDATE_INTERVAL_MS)) :
    updateMeshes now true (some f) s =
      (meshes.foldl
        (processStep f (getCameraInfo f).position (getCameraInfo f).forward)
        (deletePass meshes { s with lastMeshUpdateTime := now }, 0)).1 := by
  show updateMeshesFrame now true f s = _
  unfold updateMeshesFrame
  cases hdm : f.detectedMeshes with
  | none =>
    rw [hm] at hdm
    exact Option.noConfusion hdm
  | some meshes2 =>
    rw [hm] at hdm
    cases hdm
    show updateMeshesBody now true f meshes s = _
    unfold updateMeshesBody
    rw [if_neg hth]
    rfl

/-! ### Tick-level effect lemmas -/

/-- A mapped `XRMesh` that is absent from the feed is fully torn down by
the next eligible call. -/
theorem tick_removed {now : ℚ} {f : XRFrameT} {meshes : List XRMeshData}
    {s : MeshDetector} {x t : Nat} (hinv : Inv s)
    (hm : f.detectedMeshes = some meshes)
    (hth : ¬(now - s.lastMeshUpdateTime < MESH_UPDATE_INTERVAL_MS))
    (hl : lookupA s.xrMeshToThreeMesh x = some t)
    (habs : ∀ m ∈ meshes, m.id ≠ x) :
    lookupA (updateMeshes now true (some f) s).xrMeshToThreeMesh x = none ∧
    lookupA (updateMeshes now true (some f) s).threeMeshToXrMesh t = none ∧
    (∃ dm, lookupA (updateMeshes now true (some f) s).store t = some dm ∧
      dm.disposed = true) ∧
    t ∉ (updateMeshes now true (some f) s).scene := by
  rw [updateMeshes_eligible hm hth]
  have hinv1 : Inv { s with lastMeshUpdateTime := now } := inv_setTime hinv
  have habs' : feedHas meshes x = false := feedHas_false_iff.2 habs
  rcases deletePass_removed hinv1 hl habs' with ⟨hn2, hd2⟩
  have hseq := processFold_fwd_stable f (getCameraInfo f).position
    (getCameraInfo f).forward meshes
    (deletePass meshes { s with lastMeshUpdateTime := now }, 0) x habs
  have hdead := processFold_dead f (getCameraInfo f).position
    (getCameraInfo f).forward meshes
    (deletePass meshes { s with lastMeshUpdateTime := now }, 0) t hd2
  obtain ⟨hrev, hscene, -, hdisp⟩ := hdead
  refine ⟨?_, lookupA_eq_none_of_not_mem_keysA hrev, hdisp, hscene⟩
  rw [hseq]
  exact hn2

/-- A mapped `XRMesh` that is still in the feed but fails the visibility
predicate is fully torn down by the next eligible call. -/
theorem tick_culled {now : ℚ} {f : XRFrameT} {meshes : List XRMeshData}
    {s : MeshDetector} {x : XRMeshData} {t : Nat} (hinv : Inv s)
    (hm : f.detectedMeshes = some meshes)
    (hth : ¬(now - s.lastMeshUpdateTime < MESH_UPDATE_INTERVAL_MS))
    (hx : x ∈ meshes) (hnd : (meshes.map XRMeshData.id).Nodup)
    (hlen : meshes.length ≤ MAX_MESHES_PER_FRAME)
    (hl : lookupA s.xrMeshToThreeMesh x.id = some t)
    (hvis : shouldShowMeshInView x (getCameraInfo f).position
      (getCameraInfo f).forward f = false) :
    lookupA (updateMeshes now true (some f) s).xrMeshToThreeMesh x.id = none ∧
    lookupA (updateMeshes now true (some f) s).threeMeshToXrMesh t = none ∧
    (∃ dm, lookupA (updateMeshes now true (some f) s).store t = some dm ∧
      dm.disposed = true) ∧
    t ∉ (updateMeshes now true (some f) s).scene := by
  obtain ⟨l₁, l₂, hsplit⟩ := List.append_of_mem hx
  obtain ⟨hne1, hne2⟩ := split_ids_ne hnd hsplit
  subst hsplit
  rw [updateMeshes_eligible hm hth, List.foldl_append, List.foldl_cons]
  have hinv1 : Inv (deletePass (l₁ ++ x :: l₂) { s with lastMeshUpdateTime := now }) :=
    inv_deletePass (inv_setTime hinv)
  have hkept : feedHas (l₁ ++ x :: l₂) x.id = true :=
    feedHas_true_iff.2 ⟨x, hx, rfl⟩
  have hl2 : lookupA (deletePass (l₁ ++ x :: l₂)
      { s with lastMeshUpdateTime := now }).xrMeshToThreeMesh x.id = some t := by
    unfold deletePass
    rw [deleteFold_fwd_kept (l₁ ++ x :: l₂) _ _ x.id hkept]
    exact hl
  obtain ⟨hfwd1, -⟩ := processFold_alive f (getCameraInfo f).position
    (getCameraInfo f).forward l₁
    (deletePass (l₁ ++ x :: l₂) { s with lastMeshUpdateTime := now }, 0) x.id t
    hinv1 hne1 hl2
  have hinvA := inv_processFold f (getCameraInfo f).position (getCameraInfo f).forward
    l₁ (deletePass (l₁ ++ x :: l₂) { s with lastMeshUpdateTime := now }, 0) hinv1
  have hcnt : (l₁.foldl (processStep f (getCameraInfo f).position
      (getCameraInfo f).forward)
      (deletePass (l₁ ++ x :: l₂) { s with lastMeshUpdateTime := now }, 0)).2 <
      MAX_MESHES_PER_FRAME := by
    have h1 := processFold_count f (getCameraInfo f).position (getCameraInfo f).forward
      l₁ (deletePass (l₁ ++ x :: l₂) { s with lastMeshUpdateTime := now }, 0)
    have h2 : (l₁ ++ x :: l₂).length ≤ MAX_MESHES_PER_FRAME := hlen
    rw [List.length_append, List.length_cons] at h2
    omega
  rcases processStep_cases f (getCameraInfo f).position (getCameraInfo f).forward
      (l₁.foldl (processStep f (getCameraInfo f).position (getCameraInfo f).forward)
        (deletePass (l₁ ++ x :: l₂) { s with lastMeshUpdateTime := now }, 0)) x with
    ⟨hle, -⟩ | ⟨-, -, he⟩ | ⟨-, hv, -, -⟩ | ⟨-, hv, -, -⟩
  · exact absurd hle (Nat.not_le_of_lt hcnt)
  · rw [he]
    rw [cullRemove_eq_some hfwd1]
    rcases removePair_dead hinvA hfwd1 with ⟨hnone2, hdead2⟩
    have hseq := processFold_fwd_stable f (getCameraInfo f).position
      (getCameraInfo f).forward l₂
      (removePair (l₁.foldl (processStep f (getCameraInfo f).position
        (getCameraInfo f).forward)
        (deletePass (l₁ ++ x :: l₂) { s with lastMeshUpdateTime := now }, 0)).1 x.id t,
       (l₁.foldl (processStep f (getCameraInfo f).position
        (getCameraInfo f).forward)
        (deletePass (l₁ ++ x :: l₂) { s with lastMeshUpdateTime := now }, 0)).2)
      x.id hne2
    have hdead := processFold_dead f (getCameraInfo f).position
      (getCameraInfo f).forward l₂
      (removePair (l₁.foldl (processStep f (getCameraInfo f).position
        (getCameraInfo f).forward)
        (deletePass (l₁ ++ x :: l₂) { s with lastMeshUpdateTime := now }, 0)).1 x.id t,
       (l₁.foldl (processStep f (getCameraInfo f).position
        (getCameraInfo f).forward)
        (deletePass (l₁ ++ x :: l₂) { s with lastMeshUpdateTime := now }, 0)).2) t hdead2
    obtain ⟨hrev, hscene, -, hdisp⟩ := hdead
    refine ⟨?_, lookupA_eq_none_of_not_mem_keysA hrev, hdisp, hscene⟩
    rw [hseq]
    exact hnone2
  · rw [hvis] at hv
    exact Bool.noConfusion hv
  · rw [hvis] at hv
    exact Bool.noConfusion hv

/-- An unmapped `XRMesh` in the feed that passes the visibility predicate is
created, doubly mapped, attached to the scene, and given the configured
material/physics registration by the next eligible call. -/
theorem tick_created {now : ℚ} {f : XRFrameT} {meshes : List XRMeshData}
    {s : MeshDetector} {x : XRMeshData} (hinv : Inv s)
    (hm : f.detectedMeshes = some meshes)
    (hth : ¬(now - s.lastMeshUpdateTime < MESH_UPDATE_INTERVAL_MS))
    (hx : x ∈ meshes) (hnd : (meshes.map XRMeshData.id).Nodup)
    (hlen : meshes.length ≤ MAX_MESHES_PER_FRAME)
    (hl : lookupA s.xrMeshToThreeMesh x.id = none)
    (hvis : shouldShowMeshInView x (getCameraInfo f).position
      (getCameraInfo f).forward f = true) :
    ∃ t', lookupA (updateMeshes now true (some f) s).xrMeshToThreeMesh x.id = some t' ∧
      lookupA (updateMeshes now true (some f) s).threeMeshToXrMesh t' = some x.id ∧
      t' ∈ (updateMeshes now true (some f) s).scene ∧
      (∃ dm, lookupA (updateMeshes now true (some f) s).store t' = some dm ∧
        dm.material = selectMaterial s.debugMaterialLabels s.fallbackDebugMaterial
          x.semanticLabel ∧
        dm.physicsRegistered = s.physics ∧
        dm.verts = x.verts) := by
  obtain ⟨l₁, l₂, hsplit⟩ := List.append_of_mem hx
  obtain ⟨hne1, hne2⟩ := split_ids_ne hnd hsplit
  subst hsplit
  rw [updateMeshes_eligible hm hth, List.foldl_append, List.foldl_cons]
  have hinv1 : Inv (deletePass (l₁ ++ x :: l₂) { s with lastMeshUpdateTime := now }) :=
    inv_deletePass (inv_setTime hinv)
  have hkept : feedHas (l₁ ++ x :: l₂) x.id = true :=
    feedHas_true_iff.2 ⟨x, hx, rfl⟩
  have hl2 : lookupA (deletePass (l₁ ++ x :: l₂)
      { s with lastMeshUpdateTime := now }).xrMeshToThreeMesh x.id = none := by
    unfold deletePass
    rw [deleteFold_fwd_kept (l₁ ++ x :: l₂) _ _ x.id hkept]
    exact hl
  have hfwd1 : lookupA (l₁.foldl (processStep f (getCameraInfo f).position
      (getCameraInfo f).forward)
      (deletePass (l₁ ++ x :: l₂) { s with lastMeshUpdateTime := now },
        0)).1.xrMeshToThreeMesh x.id = none := by
    rw [processFold_fwd_stable f (getCameraInfo f).position (getCameraInfo f).forward
      l₁ _ x.id hne1]
    exact hl2
  have hinvA := inv_processFold f (getCameraInfo f).position (getCameraInfo f).forward
    l₁ (deletePass (l₁ ++ x :: l₂) { s with lastMeshUpdateTime := now }, 0) hinv1
  have hcfg : SameConfig s (l₁.foldl (processStep f (getCameraInfo f).position
      (getCameraInfo f).forward)
      (deletePass (l₁ ++ x :: l₂) { s with lastMeshUpdateTime := now }, 0)).1 := by
    have hcfg0 : SameConfig s { s with lastMeshUpdateTime := now } := ⟨rfl, rfl, rfl⟩
    have hcfg1 : SameConfig { s with lastMeshUpdateTime := now }
        (deletePass (l₁ ++ x :: l₂) { s with lastMeshUpdateTime := now }) :=
      sameConfig_deleteFold (l₁ ++ x :: l₂)
        ({ s with lastMeshUpdateTime := now } : MeshDetector).xrMeshToThreeMesh
        { s with lastMeshUpdateTime := now }
    have hcfg2 := sameConfig_processFold f (getCameraInfo f).position
      (getCameraInfo f).forward l₁
      (deletePass (l₁ ++ x :: l₂) { s with lastMeshUpdateTime := now }, 0)
    exact sameConfig_trans (sameConfig_trans hcfg0 hcfg1) hcfg2
  have hcnt : (l₁.foldl (processStep f (getCameraInfo f).position
      (getCameraInfo f).forward)
      (deletePass (l₁ ++ x :: l₂) { s with lastMeshUpdateTime := now }, 0)).2 <
      MAX_MESHES_PER_FRAME := by
    have h1 := processFold_count f (getCameraInfo f).position (getCameraInfo f).forward
      l₁ (deletePass (l₁ ++ x :: l₂) { s with lastMeshUpdateTime := now }, 0)
    have h2 : (l₁ ++ x :: l₂).length ≤ MAX_MESHES_PER_FRAME := hlen
    rw [List.length_append, List.length_cons] at h2
    omega
  rcases processStep_cases f (getCameraInfo f).position (getCameraInfo f).forward
      (l₁.foldl (processStep f (getCameraInfo f).position (getCameraInfo f).forward)
        (deletePass (l₁ ++ x :: l₂) { s with lastMeshUpdateTime := now }, 0)) x with
    ⟨hle, -⟩ | ⟨-, hv, -⟩ | ⟨-, -, hsome, -⟩ | ⟨-, -, -, he⟩
  · exact absurd hle (Nat.not_le_of_lt hcnt)
  · rw [hvis] at hv
    exact Bool.noConfusion hv
  · rw [hfwd1] at hsome
    exact Bool.noConfusion hsome
  · rw [he]
    set u := (l₁.foldl (processStep f (getCameraInfo f).position
      (getCameraInfo f).forward)
      (deletePass (l₁ ++ x :: l₂) { s with lastMeshUpdateTime := now }, 0)).1 with hu
    refine ⟨u.nextId, ?_⟩
    have hinv2 : Inv (createStep f u x) := inv_createStep hinvA hfwd1
    obtain ⟨hfwdF, hstoreF⟩ := processFold_alive f (getCameraInfo f).position
      (getCameraInfo f).forward l₂ (createStep f u x, (l₁.foldl (processStep f
        (getCameraInfo f).position (getCameraInfo f).forward)
        (deletePass (l₁ ++ x :: l₂) { s with lastMeshUpdateTime := now }, 0)).2 + 1)
      x.id u.nextId hinv2 hne2 (createStep_fwd_self f u x)
    have hinvF := inv_processFold f (getCameraInfo f).position (getCameraInfo f).forward
      l₂ (createStep f u x, (l₁.foldl (processStep f
        (getCameraInfo f).position (getCameraInfo f).forward)
        (deletePass (l₁ ++ x :: l₂) { s with lastMeshUpdateTime := now }, 0)).2 + 1) hinv2
    have hrevF := (mapsInverse_of_inv hinvF).1 x.id u.nextId hfwdF
    refine ⟨hfwdF, hrevF, ?_, ?_⟩
    · obtain ⟨-, -, -, -, -, -, -, -, hrs⟩ := hinvF
      exact hrs _ (lookupA_mem hrevF)
    · refine ⟨createdRecord f u x, ?_, ?_, ?_, ?_⟩
      · rw [hstoreF]
        exact createStep_lookup_self f u x
      · rw [createdRecord_material, hcfg.1, hcfg.2.1]
      · rw [createdRecord_physics, hcfg.2.2]
      · exact createdRecord_verts f u x

/-- A mapped, visible `XRMesh` in the feed keeps its mapping and has its
heap record refreshed (`updateVertices` then `updateMeshPose`) by the next
eligible call. -/
theorem tick_updated {now : ℚ} {f : XRFrameT} {meshes : List XRMeshData}
    {s : MeshDetector} {x : XRMeshData} {t : Nat} (hinv : Inv s)
    (hm : f.detectedMeshes = some meshes)
    (hth : ¬(now - s.lastMeshUpdateTime < MESH_UPDATE_INTERVAL_MS))
    (hx : x ∈ meshes) (hnd : (meshes.map XRMeshData.id).Nodup)
    (hlen : meshes.length ≤ MAX_MESHES_PER_FRAME)
    (hl : lookupA s.xrMeshToThreeMesh x.id = some t)
    (hvis : shouldShowMeshInView x (getCameraInfo f).position
      (getCameraInfo f).forward f = true) :
    lookupA (updateMeshes now true (some f) s).xrMeshToThreeMesh x.id = some t ∧
    lookupA (updateMeshes now true (some f) s).store t =
      (lookupA s.store t).map
        (fun dm => applyPose (lookupA f.poses x.id) { dm with verts := x.verts }) := by
  obtain ⟨l₁, l₂, hsplit⟩ := List.append_of_mem hx
  obtain ⟨hne1, hne2⟩ := split_ids_ne hnd hsplit
  subst hsplit
  rw [updateMeshes_eligible hm hth, List.foldl_append, List.foldl_cons]
  have hinv1 : Inv (deletePass (l₁ ++ x :: l₂) { s with lastMeshUpdateTime := now }) :=
    inv_deletePass (inv_setTime hinv)
  have hkept : feedHas (l₁ ++ x :: l₂) x.id = true :=
    feedHas_true_iff.2 ⟨x, hx, rfl⟩
  have hl2 : lookupA (deletePass (l₁ ++ x :: l₂)
      { s with lastMeshUpdateTime := now }).xrMeshToThreeMesh x.id = some t := by
    unfold deletePass
    rw [deleteFold_fwd_kept (l₁ ++ x :: l₂) _ _ x.id hkept]
    exact hl
  have hstore2 : lookupA (deletePass (l₁ ++ x :: l₂)
      { s with lastMeshUpdateTime := now }).store t = lookupA s.store t := by
    unfold deletePass
    refine deleteFold_store_safe (l₁ ++ x :: l₂) _ _ t ?_
    intro p hp hpfalse he
    have hpx : p.1 = x.id := by
      have hpt : ((p : Nat × Nat).1, t) ∈ s.xrMeshToThreeMesh := by
        rw [← he]
        exact hp
      exact inv_fwd_value_inj hinv hpt (lookupA_mem hl)
    rw [hpx] at hpfalse
    rw [hkept] at hpfalse
    exact Bool.noConfusion hpfalse
  obtain ⟨hfwd1, hstore1⟩ := processFold_alive f (getCameraInfo f).position
    (getCameraInfo f).forward l₁
    (deletePass (l₁ ++ x :: l₂) { s with lastMeshUpdateTime := now }, 0) x.id t
    hinv1 hne1 hl2
  have hinvA := inv_processFold f (getCameraInfo f).position (getCameraInfo f).forward
    l₁ (deletePass (l₁ ++ x :: l₂) { s with lastMeshUpdateTime := now }, 0) hinv1
  have hcnt : (l₁.foldl (processStep f (getCameraInfo f).position
      (getCameraInfo f).forward)
      (deletePass (l₁ ++ x :: l₂) { s with lastMeshUpdateTime := now }, 0)).2 <
      MAX_MESHES_PER_FRAME := by
    have h1 := processFold_count f (getCameraInfo f).position (getCameraInfo f).forward
      l₁ (deletePass (l₁ ++ x :: l₂) { s with lastMeshUpdateTime := now }, 0)
    have h2 : (l₁ ++ x :: l₂).length ≤ MAX_MESHES_PER_FRAME := hlen
    rw [List.length_append, List.length_cons] at h2
    omega
  rcases processStep_cases f (getCameraInfo f).position (getCameraInfo f).forward
      (l₁.foldl (processStep f (getCameraInfo f).position (getCameraInfo f).forward)
        (deletePass (l₁ ++ x :: l₂) { s with lastMeshUpdateTime := now }, 0)) x with
    ⟨hle, -⟩ | ⟨-, hv, -⟩ | ⟨-, -, -, he⟩ | ⟨-, -, hnone, -⟩
  · exact absurd hle (Nat.not_le_of_lt hcnt)
  · rw [hvis] at hv
    exact Bool.noConfusion hv
  · rw [he]
    set u := (l₁.foldl (processStep f (getCameraInfo f).position
      (getCameraInfo f).forward)
      (deletePass (l₁ ++ x :: l₂) { s with lastMeshUpdateTime := now }, 0)).1 with hu
    rw [updateStep_eq_some hfwd1]
    have hinv2 : Inv ({ u with store := modifyA u.store t (fun dm =>
        applyPose (lookupA f.poses x.id) { dm with verts := x.verts }) }) := by
      rw [← updateStep_eq_some hfwd1]
      exact inv_updateStep hinvA
    have hfwd2 : lookupA ({ u with store := modifyA u.store t (fun dm =>
        applyPose (lookupA f.poses x.id) { dm with verts := x.verts })
        }).xrMeshToThreeMesh x.id = some t := hfwd1
    obtain ⟨hfwdF, hstoreF⟩ := processFold_alive f (getCameraInfo f).position
      (getCameraInfo f).forward l₂
      ({ u with store := modifyA u.store t (fun dm =>
          applyPose (lookupA f.poses x.id) { dm with verts := x.verts }) },
       (l₁.foldl (processStep f (getCameraInfo f).position
        (getCameraInfo f).forward)
        (deletePass (l₁ ++ x :: l₂) { s with lastMeshUpdateTime := now }, 0)).2 + 1)
      x.id t hinv2 hne2 hfwd2
    refine ⟨hfwdF, ?_⟩
    rw [hstoreF]
    show lookupA (modifyA u.store t (fun dm =>
      applyPose (lookupA f.poses x.id) { dm with verts := x.verts })) t = _
    rw [lookupA_modifyA_self, hstore1, hstore2]
  · rw [hfwd1] at hnone
    exact Option.noConfusion hnone

/-! ### The visibility predicate over the reals -/

/-- The squared viewer-to-mesh distance (`dx*dx + dy*dy + dz*dz`). -/
def distSqQ (p c : Vec3) : ℚ :=
  (p.x - c.x) * (p.x - c.x) + (p.y - c.y) * (p.y - c.y) + (p.z - c.z) * (p.z - c.z)

/-- The unnormalized direction-to-mesh dotted with the camera forward
(`dx*forward.x + dy*forward.y + dz*forward.z`, i.e. `dotForward * distance`). -/
def dotQ (p c fwd : Vec3) : ℚ :=
  (p.x - c.x) * fwd.x + (p.y - c.y) * fwd.y + (p.z - c.z) * fwd.z

/-- The source's `distance = Math.sqrt(dx*dx + dy*dy + dz*dz)`, as a real. -/
noncomputable def viewerDistance (p c : Vec3) : ℝ :=
  Real.sqrt ((distSqQ p c : ℚ) : ℝ)

theorem distSqQ_nonneg (p c : Vec3) : 0 ≤ distSqQ p c := by
  unfold distSqQ
  have h1 := mul_self_nonneg (p.x - c.x)
  have h2 := mul_self_nonneg (p.y - c.y)
  have h3 := mul_self_nonneg (p.z - c.z)
  linarith

/-- The `ltSqrt` encoding is exact: for `0 ≤ sq` it decides
`c < Real.sqrt sq`. -/
theorem ltSqrt_iff {c sq : ℚ} :
    ltSqrt c sq = true ↔ (c : ℝ) < Real.sqrt ((sq : ℚ) : ℝ) := by
  unfold ltSqrt
  rw [Bool.or_eq_true, decide_eq_true_eq, decide_eq_true_eq]
  constructor
  · rintro (hc | hsq)
    · calc (c : ℝ) < 0 := by exact_mod_cast hc
        _ ≤ Real.sqrt ((sq : ℚ) : ℝ) := Real.sqrt_nonneg _
    · rcases lt_or_le c 0 with hc | hc
      · calc (c : ℝ) < 0 := by exact_mod_cast hc
          _ ≤ Real.sqrt ((sq : ℚ) : ℝ) := Real.sqrt_nonneg _
      · have hc' : (0 : ℝ) ≤ (c : ℝ) := by exact_mod_cast hc
        rw [Real.lt_sqrt hc']
        have he : ((c : ℝ)) ^ 2 = ((c * c : ℚ) : ℝ) := by
          push_cast
          ring
        rw [he]
        exact_mod_cast hsq
  · intro hlt
    rcases lt_or_le c 0 with hc | hc
    · exact Or.inl hc
    · right
      have hc' : (0 : ℝ) ≤ (c : ℝ) := by exact_mod_cast hc
      have h2 := (Real.lt_sqrt hc').1 hlt
      have he : ((c : ℝ)) ^ 2 = ((c * c : ℚ) : ℝ) := by
        push_cast
        ring
      rw [he] at h2
      exact_mod_cast h2

theorem shouldShow_eq_none {m : XRMeshData} {cP cF : Vec3} {f : XRFrameT}
    (hp : lookupA f.poses m.id = none) :
    shouldShowMeshInView m cP cF f = true := by
  unfold shouldShowMeshInView
  rw [hp]

theorem shouldShow_eq_some {m : XRMeshData} {cP cF : Vec3} {f : XRFrameT}
    {p : Pose} (hp : lookupA f.poses m.id = some p) :
    shouldShowMeshInView m cP cF f =
      (if ltSqrt kMaxViewDistance (distSqQ p.position cP) then false
       else if ltSqrt (1/1000) (distSqQ p.position cP) then
         (if ltSqrt (dotQ p.position cP cF / kFOVCosThreshold)
             (distSqQ p.position cP) then false
          else true)
       else true) := by
  unfold shouldShowMeshInView
  rw [hp]
  rfl

/-- The source's culling test, characterized over the reals exactly as the
spec states it: with a pose available, the mesh is treated as not visible
iff the straight-line distance exceeds `kMaxViewDistance`, or the distance
exceeds the `0.001` epsilon and the normalized direction-to-mesh dotted
with the forward vector is below `kFOVCosThreshold`. -/
theorem shouldShow_false_iff {m : XRMeshData} {cP cF : Vec3} {f : XRFrameT}
    {p : Pose} (hp : lookupA f.poses m.id = some p) :
    (shouldShowMeshInView m cP cF f = false ↔
      (kMaxViewDistance : ℝ) < viewerDistance p.position cP ∨
      ((1/1000 : ℝ) < viewerDistance p.position cP ∧
        ((dotQ p.position cP cF : ℚ) : ℝ) / viewerDistance p.position cP <
          (kFOVCosThreshold : ℝ))) := by
  rw [shouldShow_eq_some hp]
  have hA := @ltSqrt_iff kMaxViewDistance (distSqQ p.position cP)
  have hB := @ltSqrt_iff (1/1000) (distSqQ p.position cP)
  have hC := @ltSqrt_iff (dotQ p.position cP cF / kFOVCosThreshold)
    (distSqQ p.position cP)
  by_cases ha : ltSqrt kMaxViewDistance (distSqQ p.position cP)
  · rw [if_pos ha]
    constructor
    · intro _
      exact Or.inl (hA.1 ha)
    · intro _
      rfl
  · rw [if_neg ha]
    have hA' : ¬((kMaxViewDistance : ℝ) < viewerDistance p.position cP) := by
      intro hlt
      exact ha (hA.2 hlt)
    by_cases hb : ltSqrt (1/1000) (distSqQ p.position cP)
    · rw [if_pos hb]
      have hbR : (1/1000 : ℝ) < viewerDistance p.position cP := by
        have h1 := hB.1 hb
        simpa using h1
      have hdpos : 0 < viewerDistance p.position cP := by
        calc (0 : ℝ) < 1/1000 := by norm_num
          _ < _ := hbR
      have hcthr : (0 : ℝ) < (kFOVCosThreshold : ℝ) := by
        rw [show (kFOVCosThreshold : ℚ) = 1/4 from rfl]
        norm_num
      have hcR : ltSqrt (dotQ p.position cP cF / kFOVCosThreshold)
          (distSqQ p.position cP) = true ↔
          ((dotQ p.position cP cF : ℚ) : ℝ) / viewerDistance p.position cP <
            (kFOVCosThreshold : ℝ) := by
        rw [hC]
        show ((dotQ p.position cP cF / kFOVCosThreshold : ℚ) : ℝ) <
            viewerDistance p.position cP ↔ _
        have hcast : ((dotQ p.position cP cF / kFOVCosThreshold : ℚ) : ℝ) =
            ((dotQ p.position cP cF : ℚ) : ℝ) / (kFOVCosThreshold : ℝ) := by
          push_cast
          ring
        rw [hcast, div_lt_iff₀ hcthr, div_lt_iff₀ hdpos, mul_comm]
      by_cases hc : ltSqrt (dotQ p.position cP cF / kFOVCosThreshold)
          (distSqQ p.position cP)
      · rw [if_pos hc]
        constructor
        · intro _
          exact Or.inr ⟨hbR, hcR.1 hc⟩
        · intro _
          rfl
      · rw [if_neg hc]
        constructor
        · intro h1
          exact Bool.noConfusion h1
        · rintro (h1 | ⟨-, h2⟩)
          · exact absurd h1 hA'
          · exact absurd (hcR.2 h2) hc
    · rw [if_neg hb]
      have hB' : ¬((1/1000 : ℝ) < viewerDistance p.position cP) := by
        intro hlt
        apply hb
        apply hB.2
        simpa using hlt
      constructor
      · intro h1
        exact Bool.noConfusion h1
      · rintro (h1 | ⟨h2, -⟩)
        · exact absurd h1 hA'
        · exact absurd h2 hB'

/-! ### `initPhysics` backfill -/

/-- Predicate stating `initRapierPhysics` has been called on the heap record `t`. -/
def physRegAt (st : MeshDetector) (t : Nat) : Prop :=
  ∃ dm, lookupA st.store t = some dm ∧ dm.physicsRegistered = true

theorem physRegAt_markStep_mono {st : MeshDetector} {q : Nat × Nat} {t : Nat}
    (h : physRegAt st t) : physRegAt (markStep st q) t := by
  rcases h with ⟨dm, hdm, hr⟩
  by_cases hk : t = q.2
  · subst hk
    refine ⟨{ dm with physicsRegistered := true }, ?_, rfl⟩
    show lookupA (modifyA st.store q.2 (fun dm => { dm with physicsRegistered := true })) q.2 = _
    rw [lookupA_modifyA_self, hdm]
    rfl
  · refine ⟨dm, ?_, hr⟩
    show lookupA (modifyA st.store q.2 (fun dm => { dm with physicsRegistered := true })) t = _
    rw [lookupA_modifyA_ne hk]
    exact hdm

theorem physRegAt_markStep_self {st : MeshDetector} {q : Nat × Nat}
    (h : q.2 ∈ keysA st.store) : physRegAt (markStep st q) q.2 := by
  rcases lookupA_isSome_of_mem_keysA h with ⟨dm, hdm⟩
  refine ⟨{ dm with physicsRegistered := true }, ?_, rfl⟩
  show lookupA (modifyA st.store q.2 (fun dm => { dm with physicsRegistered := true })) q.2 = _
  rw [lookupA_modifyA_self, hdm]
  rfl

theorem markStep_keys {st : MeshDetector} {q : Nat × Nat} :
    keysA (markStep st q).store = keysA st.store := by
  show keysA (modifyA st.store q.2 (fun dm => { dm with physicsRegistered := true })) =
    keysA st.store
  exact keysA_modifyA

theorem physRegAt_markFold_mono :
    ∀ (l : List (Nat × Nat)) (st : MeshDetector) (t : Nat),
      physRegAt st t → physRegAt (l.foldl markStep st) t
  | [], _, _, h => h
  | q :: l, st, t, h => by
    rw [List.foldl_cons]
    exact physRegAt_markFold_mono l _ t (physRegAt_markStep_mono h)

theorem physRegAt_markFold_all :
    ∀ (l : List (Nat × Nat)) (st : MeshDetector),
      (∀ p ∈ l, (p : Nat × Nat).2 ∈ keysA st.store) →
      ∀ p ∈ l, physRegAt (l.foldl markStep st) p.2
  | [], _, _, p, hp => absurd hp (List.not_mem_nil p)
  | q :: l, st, hk, p, hp => by
    rw [List.foldl_cons]
    rcases List.mem_cons.1 hp with rfl | hp
    · exact physRegAt_markFold_mono l _ _
        (physRegAt_markStep_self (hk p (List.mem_cons_self _ _)))
    · refine physRegAt_markFold_all l (markStep st q) ?_ p hp
      intro r hr
      rw [markStep_keys]
      exact hk r (List.mem_cons_of_mem _ hr)

/-- Backfill: `initPhysics` retroactively registers physics for every currently
mapped `DetectedMesh`. -/
theorem initPhysics_backfill {s : MeshDetector} (hinv : Inv s) :
    ∀ p ∈ s.xrMeshToThreeMesh,
      ∃ dm, lookupA (initPhysics s).store p.2 = some dm ∧
        dm.physicsRegistered = true := by
  intro p hp
  have hkeys : ∀ q ∈ s.xrMeshToThreeMesh,
      (q : Nat × Nat).2 ∈ keysA ({ s with physics := true } : MeshDetector).store := by
    intro q hq
    exact inv_fwd_value_store hinv hq
  exact physRegAt_markFold_all s.xrMeshToThreeMesh { s with physics := true } hkeys p hp

/-! ### Concrete fixtures for the scenario checks -/

def scenarioViewer : CameraInfo := ⟨⟨0, 0, 0⟩, ⟨0, 0, -1⟩⟩

def scenarioMeshA : XRMeshData := ⟨1, some "wall", 7⟩

def scenarioMeshB : XRMeshData := ⟨2, none, 8⟩

def scenarioMeshC : XRMeshData := ⟨3, some "floor", 9⟩

/-- Viewer at the origin facing `-Z`; meshes at `(0,0,-1)`, `(0,0,-5)` and
`(3,0,0)`. -/
def scenarioFrame : XRFrameT :=
  { detectedMeshes := some [scenarioMeshA, scenarioMeshB, scenarioMeshC]
    viewerPose := some scenarioViewer
    poses := [(1, ⟨⟨0, 0, -1⟩, 0⟩), (2, ⟨⟨0, 0, -5⟩, 0⟩), (3, ⟨⟨3, 0, 0⟩, 0⟩)] }

/-- A reachable state with one mapped mesh (handle 1 ↦ `DetectedMesh` 0). -/
def wStateMapped : MeshDetector :=
  { debugMaterialLabels := SEMANTIC_LABELS
    fallbackDebugMaterial := true
    xrMeshToThreeMesh := [(1, 0)]
    threeMeshToXrMesh := [(0, 1)]
    physics := false
    lastMeshUpdateTime := 0
    store := [(0, ⟨⟨0, 0, -1⟩, 0, 7, MaterialKind.debug "wall", false, false⟩)]
    scene := [0]
    nextId := 1 }

/-- Same state with the physics engine attached. -/
def wStatePhysics : MeshDetector :=
  { wStateMapped with physics := true }

def wFrameEmpty : XRFrameT :=
  { detectedMeshes := some [], viewerPose := some scenarioViewer, poses := [] }

def wFrameFar : XRFrameT :=
  { detectedMeshes := some [scenarioMeshA], viewerPose := some scenarioViewer,
    poses := [(1, ⟨⟨0, 0, -5⟩, 0⟩)] }

def wFrameNear : XRFrameT :=
  { detectedMeshes := some [scenarioMeshA], viewerPose := some scenarioViewer,
    poses := [(1, ⟨⟨0, 0, -1⟩, 0⟩)] }

def wFrameNoPose : XRFrameT :=
  { detectedMeshes := some [scenarioMeshA], viewerPose := some scenarioViewer,
    poses := [] }

theorem sqrt25_gt3 : (3 : ℝ) < Real.sqrt ((25 : ℚ) : ℝ) := by
  rw [show ((25 : ℚ) : ℝ) = 5 ^ 2 by norm_num, Real.sqrt_sq (by norm_num)]
  norm_num

/-! ### The claims -/

/-- C1: Bijection invariant of the mapping tables.  Starting from the empty
mapping, after any sequence of `updateMeshes` calls, for every `XRMesh`
handle in the forward map `xrMeshToThreeMesh`, looking its mapped
`DetectedMesh` up in the reverse map `threeMeshToXrMesh` yields the handle
back, and conversely; neither map holds an entry without the matching
inverse entry. -/
theorem bijection_invariant_after_ticks (inputs : List TickInput)
    (showDebug : Bool) :
    MapsInverse (runTicks inputs (initialState showDebug)) :=
  mapsInverse_of_inv (inv_runTicks inputs _ (inv_initialState showDebug))

theorem bijection_invariant_after_ticks_witness :
    MapsInverse (runTicks [⟨2000, true, some scenarioFrame⟩] (initialState true)) :=
  bijection_invariant_after_ticks [⟨2000, true, some scenarioFrame⟩] true

/-- C2: Throttle gate.  A call to `updateMeshes` for which
`now - lastMeshUpdateTime < MESH_UPDATE_INTERVAL_MS` returns immediately
with the entire state unchanged — forward map, reverse map, scene, heap
and `lastMeshUpdateTime` included; in particular a second call within the
interval performs no mapping mutation. -/
theorem throttle_gate_no_mutation (now : ℚ) (rs : Bool) (frame : Option XRFrameT)
    (s : MeshDetector) (h : now - s.lastMeshUpdateTime < MESH_UPDATE_INTERVAL_MS) :
    updateMeshes now rs frame s = s :=
  updateMeshes_throttled h

theorem throttle_gate_no_mutation_witness :
    updateMeshes 500 true (some scenarioFrame) wStateMapped = wStateMapped :=
  throttle_gate_no_mutation 500 true (some scenarioFrame) wStateMapped
    (by with_unfolding_all decide)

/-- C3: Disappearance cleanup.  A handle mapped before the call but absent
from the frame's `detectedMeshes` set is, after the next eligible
(non-throttled, reference-space-available) call, removed from both maps,
its `DetectedMesh` is `dispose()`d, and it is detached from the scene. -/
theorem disappearance_cleanup (now : ℚ) (f : XRFrameT) (meshes : List XRMeshData)
    (s : MeshDetector) (x t : Nat) (hinv : Inv s)
    (hm : f.detectedMeshes = some meshes)
    (hth : ¬(now - s.lastMeshUpdateTime < MESH_UPDATE_INTERVAL_MS))
    (hl : lookupA s.xrMeshToThreeMesh x = some t)
    (habs : ∀ m ∈ meshes, m.id ≠ x) :
    lookupA (updateMeshes now true (some f) s).xrMeshToThreeMesh x = none ∧
    lookupA (updateMeshes now true (some f) s).threeMeshToXrMesh t = none ∧
    (∃ dm, lookupA (updateMeshes now true (some f) s).store t = some dm ∧
      dm.disposed = true) ∧
    t ∉ (updateMeshes now true (some f) s).scene :=
  tick_removed hinv hm hth hl habs

theorem disappearance_cleanup_witness :
    lookupA (updateMeshes 2000 true (some wFrameEmpty) wStateMapped).xrMeshToThreeMesh
      1 = none ∧
    lookupA (updateMeshes 2000 true (some wFrameEmpty) wStateMapped).threeMeshToXrMesh
      0 = none ∧
    (∃ dm, lookupA (updateMeshes 2000 true (some wFrameEmpty) wStateMapped).store 0 =
      some dm ∧ dm.disposed = true) ∧
    0 ∉ (updateMeshes 2000 true (some wFrameEmpty) wStateMapped).scene :=
  disappearance_cleanup 2000 wFrameEmpty [] wStateMapped 1 0
    (by with_unfolding_all decide) rfl (by with_unfolding_all decide)
    (by with_unfolding_all decide) (by with_unfolding_all decide)

/-- C4: Visibility predicate.  For every mesh with an available pose, the
predicate returns not-visible exactly when the straight-line
viewer-to-mesh distance exceeds `kMaxViewDistance` (3.0), or the distance
exceeds the `0.001` epsilon and the normalized direction-to-mesh dotted
with viewer-forward is below `kFOVCosThreshold` (0.25); meshes within
epsilon always pass the angular test (the second disjunct requires the
distance to exceed epsilon).  Concretely, with the viewer at the origin
facing `-Z`: a mesh at `(0,0,-1)` is visible, a mesh at `(0,0,-5)` is
culled by distance, and a mesh at `(3,0,0)` is culled by the cone test
despite distance 3.0 sitting exactly on the boundary. -/
theorem visibility_predicate :
    (∀ (m : XRMeshData) (cP cF : Vec3) (f : XRFrameT) (p : Pose),
      lookupA f.poses m.id = some p →
      (shouldShowMeshInView m cP cF f = false ↔
        (kMaxViewDistance : ℝ) < viewerDistance p.position cP ∨
        ((1/1000 : ℝ) < viewerDistance p.position cP ∧
          ((dotQ p.position cP cF : ℚ) : ℝ) / viewerDistance p.position cP <
            (kFOVCosThreshold : ℝ)))) ∧
    shouldShowMeshInView scenarioMeshA scenarioViewer.position
      scenarioViewer.forward scenarioFrame = true ∧
    shouldShowMeshInView scenarioMeshB scenarioViewer.position
      scenarioViewer.forward scenarioFrame = false ∧
    shouldShowMeshInView scenarioMeshC scenarioViewer.position
      scenarioViewer.forward scenarioFrame = false :=
  ⟨fun _ _ _ _ _ hp => shouldShow_false_iff hp,
   by with_unfolding_all decide,
   by with_unfolding_all decide,
   by with_unfolding_all decide⟩

theorem visibility_predicate_witness :
    shouldShowMeshInView scenarioMeshB scenarioViewer.position
      scenarioViewer.forward scenarioFrame = false := by
  refine (visibility_predicate.1 scenarioMeshB scenarioViewer.position
    scenarioViewer.forward scenarioFrame ⟨⟨0, 0, -5⟩, 0⟩
    (by with_unfolding_all decide)).2 (Or.inl ?_)
  show ((kMaxViewDistance : ℚ) : ℝ) <
    viewerDistance ⟨0, 0, -5⟩ scenarioViewer.position
  have hsq : distSqQ ⟨0, 0, -5⟩ scenarioViewer.position = 25 := by
    show distSqQ ⟨0, 0, -5⟩ ⟨0, 0, 0⟩ = 25
    unfold distSqQ
    norm_num
  unfold viewerDistance
  rw [hsq, show ((kMaxViewDistance : ℚ) : ℝ) = 3 by norm_num [kMaxViewDistance]]
  exact sqrt25_gt3

/-- C5: Culling reversibility.  A mapped `XRMesh` that, on an eligible
call, is still in the feed but reports a pose farther than
`kMaxViewDistance` from the viewer has both mapping entries removed with
the same teardown as feed disappearance (dispose + detach); and an
unmapped `XRMesh` in the feed whose reported position passes the
visibility predicate has its `DetectedMesh` re-created, both mapping
entries registered, and is re-attached to the scene by the eligible
call. -/
theorem culling_reversibility :
    (∀ (now : ℚ) (f : XRFrameT) (meshes : List XRMeshData) (s : MeshDetector)
      (x : XRMeshData) (t : Nat) (p : Pose),
      Inv s → f.detectedMeshes = some meshes →
      ¬(now - s.lastMeshUpdateTime < MESH_UPDATE_INTERVAL_MS) →
      x ∈ meshes → (meshes.map XRMeshData.id).Nodup →
      meshes.length ≤ MAX_MESHES_PER_FRAME →
      lookupA s.xrMeshToThreeMesh x.id = some t →
      lookupA f.poses x.id = some p →
      (kMaxViewDistance : ℝ) < viewerDistance p.position (getCameraInfo f).position →
      lookupA (updateMeshes now true (some f) s).xrMeshToThreeMesh x.id = none ∧
      lookupA (updateMeshes now true (some f) s).threeMeshToXrMesh t = none ∧
      (∃ dm, lookupA (updateMeshes now true (some f) s).store t = some dm ∧
        dm.disposed = true) ∧
      t ∉ (updateMeshes now true (some f) s).scene) ∧
    (∀ (now : ℚ) (f : XRFrameT) (meshes : List XRMeshData) (s : MeshDetector)
      (x : XRMeshData),
      Inv s → f.detectedMeshes = some meshes →
      ¬(now - s.lastMeshUpdateTime < MESH_UPDATE_INTERVAL_MS) →
      x ∈ meshes → (meshes.map XRMeshData.id).Nodup →
      meshes.length ≤ MAX_MESHES_PER_FRAME →
      lookupA s.xrMeshToThreeMesh x.id = none →
      shouldShowMeshInView x (getCameraInfo f).position (getCameraInfo f).forward f =
        true →
      ∃ t', lookupA (updateMeshes now true (some f) s).xrMeshToThreeMesh x.id =
          some t' ∧
        lookupA (updateMeshes now true (some f) s).threeMeshToXrMesh t' = some x.id ∧
        t' ∈ (updateMeshes now true (some f) s).scene) := by
  constructor
  · intro now f meshes s x t p hinv hm hth hx hnd hlen hl hp hdist
    have hvis : shouldShowMeshInView x (getCameraInfo f).position
        (getCameraInfo f).forward f = false :=
      (shouldShow_false_iff hp).2 (Or.inl hdist)
    exact tick_culled hinv hm hth hx hnd hlen hl hvis
  · intro now f meshes s x hinv hm hth hx hnd hlen hl hvis
    rcases tick_created hinv hm hth hx hnd hlen hl hvis with ⟨t', h1, h2, h3, -⟩
    exact ⟨t', h1, h2, h3⟩

theorem culling_reversibility_witness :
    (lookupA (updateMeshes 2000 true (some wFrameFar)
        wStateMapped).xrMeshToThreeMesh 1 = none ∧
      lookupA (updateMeshes 2000 true (some wFrameFar)
        wStateMapped).threeMeshToXrMesh 0 = none ∧
      (∃ dm, lookupA (updateMeshes 2000 true (some wFrameFar) wStateMapped).store 0 =
        some dm ∧ dm.disposed = true) ∧
      0 ∉ (updateMeshes 2000 true (some wFrameFar) wStateMapped).scene) ∧
    (∃ t', lookupA (updateMeshes 2000 true (some wFrameNear)
          (initialState true)).xrMeshToThreeMesh 1 = some t' ∧
      lookupA (updateMeshes 2000 true (some wFrameNear)
        (initialState true)).threeMeshToXrMesh t' = some 1 ∧
      t' ∈ (updateMeshes 2000 true (some wFrameNear) (initialState true)).scene) := by
  constructor
  · refine culling_reversibility.1 2000 wFrameFar [scenarioMeshA] wStateMapped
      scenarioMeshA 0 ⟨⟨0, 0, -5⟩, 0⟩ (by with_unfolding_all decide) rfl
      (by with_unfolding_all decide) (by with_unfolding_all decide)
      (by with_unfolding_all decide) (by with_unfolding_all decide)
      (by with_unfolding_all decide) (by with_unfolding_all decide) ?_
    show ((kMaxViewDistance : ℚ) : ℝ) <
      viewerDistance ⟨0, 0, -5⟩ (getCameraInfo wFrameFar).position
    have hsq : distSqQ ⟨0, 0, -5⟩ (getCameraInfo wFrameFar).position = 25 := by
      show distSqQ ⟨0, 0, -5⟩ ⟨0, 0, 0⟩ = 25
      unfold distSqQ
      norm_num
    unfold viewerDistance
    rw [hsq, show ((kMaxViewDistance : ℚ) : ℝ) = 3 by norm_num [kMaxViewDistance]]
    exact sqrt25_gt3
  · exact culling_reversibility.2 2000 wFrameNear [scenarioMeshA] (initialState true)
      scenarioMeshA (by with_unfolding_all decide) rfl
      (by with_unfolding_all decide) (by with_unfolding_all decide)
      (by with_unfolding_all decide) (by with_unfolding_all decide)
      (by with_unfolding_all decide) (by with_unfolding_all decide)

/-- C6: Fail-open on missing pose.  A mesh whose pose lookup returns no
pose is treated as visible by the predicate regardless of the distance and
cone thresholds, so on an eligible call it ends up mapped (created if
absent, updated if present); the model of the tick is a total function, so
the missing pose never surfaces as an error. -/
theorem fail_open_missing_pose :
    (∀ (m : XRMeshData) (cP cF : Vec3) (f : XRFrameT),
      lookupA f.poses m.id = none → shouldShowMeshInView m cP cF f = true) ∧
    (∀ (now : ℚ) (f : XRFrameT) (meshes : List XRMeshData) (s : MeshDetector)
      (x : XRMeshData),
      Inv s → f.detectedMeshes = some meshes →
      ¬(now - s.lastMeshUpdateTime < MESH_UPDATE_INTERVAL_MS) →
      x ∈ meshes → (meshes.map XRMeshData.id).Nodup →
      meshes.length ≤ MAX_MESHES_PER_FRAME →
      lookupA f.poses x.id = none →
      (lookupA (updateMeshes now true (some f) s).xrMeshToThreeMesh x.id).isSome =
        true) := by
  constructor
  · exact fun m cP cF f hp => shouldShow_eq_none hp
  · intro now f meshes s x hinv hm hth hx hnd hlen hp
    have hvis := @shouldShow_eq_none x (getCameraInfo f).position
      (getCameraInfo f).forward f hp
    cases hfwd : lookupA s.xrMeshToThreeMesh x.id with
    | some t =>
      rw [(tick_updated hinv hm hth hx hnd hlen hfwd hvis).1]
      rfl
    | none =>
      rcases tick_created hinv hm hth hx hnd hlen hfwd hvis with ⟨t', h1, -, -, -⟩
      rw [h1]
      rfl

theorem fail_open_missing_pose_witness :
    shouldShowMeshInView scenarioMeshA scenarioViewer.position
      scenarioViewer.forward wFrameNoPose = true ∧
    (lookupA (updateMeshes 2000 true (some wFrameNoPose)
      (initialState true)).xrMeshToThreeMesh 1).isSome = true :=
  ⟨fail_open_missing_pose.1 scenarioMeshA scenarioViewer.position
      scenarioViewer.forward wFrameNoPose rfl,
   fail_open_missing_pose.2 2000 wFrameNoPose [scenarioMeshA] (initialState true)
      scenarioMeshA (by with_unfolding_all decide) rfl
      (by with_unfolding_all decide) (by with_unfolding_all decide)
      (by with_unfolding_all decide) (by with_unfolding_all decide) rfl⟩

theorem selectMaterial_some (lbls : List String) (hf : Bool) (l : String) :
    selectMaterial lbls hf (some l) =
      (if l ∈ lbls then MaterialKind.debug l
       else if hf then MaterialKind.fallbackDebug
       else MaterialKind.invisibleDefault) := rfl

theorem selectMaterial_none (lbls : List String) (hf : Bool) :
    selectMaterial lbls hf none =
      (if hf then MaterialKind.fallbackDebug else MaterialKind.invisibleDefault) := rfl

/-- C7: Material fallback ordering.  Every newly created `DetectedMesh`
gets the first defined of: the label-specific debug material for its
semantic label, the generic wireframe fallback, the invisible default; a
mesh whose semantic label is undefined or outside the configured label set
never receives a label-specific material. -/
theorem material_fallback_ordering :
    (∀ (f : XRFrameT) (s : MeshDetector) (x : XRMeshData) (l : String),
      x.semanticLabel = some l → l ∈ s.debugMaterialLabels →
      (createMesh f s x).material = MaterialKind.debug l) ∧
    (∀ (f : XRFrameT) (s : MeshDetector) (x : XRMeshData),
      (∀ l, x.semanticLabel = some l → l ∉ s.debugMaterialLabels) →
      s.fallbackDebugMaterial = true →
      (createMesh f s x).material = MaterialKind.fallbackDebug) ∧
    (∀ (f : XRFrameT) (s : MeshDetector) (x : XRMeshData),
      (∀ l, x.semanticLabel = some l → l ∉ s.debugMaterialLabels) →
      s.fallbackDebugMaterial = false →
      (createMesh f s x).material = MaterialKind.invisibleDefault) ∧
    (∀ (f : XRFrameT) (s : MeshDetector) (x : XRMeshData) (l : String),
      (createMesh f s x).material = MaterialKind.debug l →
      x.semanticLabel = some l ∧ l ∈ s.debugMaterialLabels) := by
  refine ⟨?_, ?_, ?_, ?_⟩
  · intro f s x l hx hl
    rw [createMesh_material, hx, selectMaterial_some, if_pos hl]
  · intro f s x hlab hf
    rw [createMesh_material]
    cases hx : x.semanticLabel with
    | none =>
      rw [selectMaterial_none, if_pos hf]
    | some l =>
      rw [selectMaterial_some, if_neg (hlab l hx), if_pos hf]
  · intro f s x hlab hf
    rw [createMesh_material]
    cases hx : x.semanticLabel with
    | none =>
      rw [selectMaterial_none, if_neg (by rw [hf]; exact Bool.false_ne_true)]
    | some l =>
      rw [selectMaterial_some, if_neg (hlab l hx),
        if_neg (by rw [hf]; exact Bool.false_ne_true)]
  · intro f s x l h
    rw [createMesh_material] at h
    cases hx : x.semanticLabel with
    | none =>
      rw [hx, selectMaterial_none] at h
      by_cases hf : s.fallbackDebugMaterial = true
      · rw [if_pos hf] at h
        exact absurd h (by simp)
      · rw [if_neg hf] at h
        exact absurd h (by simp)
    | some l2 =>
      rw [hx, selectMaterial_some] at h
      by_cases hmem : l2 ∈ s.debugMaterialLabels
      · rw [if_pos hmem] at h
        injection h with h2
        subst h2
        exact ⟨rfl, hmem⟩
      · rw [if_neg hmem] at h
        by_cases hf : s.fallbackDebugMaterial = true
        · rw [if_pos hf] at h
          exact absurd h (by simp)
        · rw [if_neg hf] at h
          exact absurd h (by simp)

theorem material_fallback_ordering_witness :
    (createMesh scenarioFrame (initialState true) scenarioMeshA).material =
      MaterialKind.debug "wall" ∧
    (createMesh scenarioFrame (initialState true)
      ⟨4, some "table", 0⟩).material = MaterialKind.fallbackDebug ∧
    (createMesh scenarioFrame (initialState false)
      ⟨4, some "table", 0⟩).material = MaterialKind.invisibleDefault :=
  ⟨material_fallback_ordering.1 scenarioFrame (initialState true) scenarioMeshA
      "wall" rfl (by with_unfolding_all decide),
   material_fallback_ordering.2.1 scenarioFrame (initialState true)
      ⟨4, some "table", 0⟩
      (by
        intro l hl
        injection hl with h2
        subst h2
        with_unfolding_all decide) rfl,
   material_fallback_ordering.2.2.1 scenarioFrame (initialState false)
      ⟨4, some "table", 0⟩
      (by
        intro l hl
        injection hl with h2
        subst h2
        with_unfolding_all decide) rfl⟩

/-- An empty-mapping state with the physics engine already attached. -/
def wStateEmptyPhysics : MeshDetector :=
  { initialState true with physics := true }

/-- C8: Physics late-binding backfill.  Attaching the physics engine via
`initPhysics` registers a physics representation for every currently
mapped `DetectedMesh`; and every `DetectedMesh` created by an eligible
call while the engine is attached has its physics representation
registered at creation time. -/
theorem physics_late_binding :
    (∀ (s : MeshDetector), Inv s → ∀ p ∈ s.xrMeshToThreeMesh,
      ∃ dm, lookupA (initPhysics s).store p.2 = some dm ∧
        dm.physicsRegistered = true) ∧
    (∀ (now : ℚ) (f : XRFrameT) (meshes : List XRMeshData) (s : MeshDetector)
      (x : XRMeshData),
      Inv s → s.physics = true → f.detectedMeshes = some meshes →
      ¬(now - s.lastMeshUpdateTime < MESH_UPDATE_INTERVAL_MS) →
      x ∈ meshes → (meshes.map XRMeshData.id).Nodup →
      meshes.length ≤ MAX_MESHES_PER_FRAME →
      lookupA s.xrMeshToThreeMesh x.id = none →
      shouldShowMeshInView x (getCameraInfo f).position (getCameraInfo f).forward f =
        true →
      ∃ t' dm,
        lookupA (updateMeshes now true (some f) s).xrMeshToThreeMesh x.id = some t' ∧
        lookupA (updateMeshes now true (some f) s).store t' = some dm ∧
        dm.physicsRegistered = true) := by
  constructor
  · exact fun s hinv => initPhysics_backfill hinv
  · intro now f meshes s x hinv hphys hm hth hx hnd hlen hl hvis
    rcases tick_created hinv hm hth hx hnd hlen hl hvis with
      ⟨t', h1, -, -, dm, hdm, -, hreg, -⟩
    refine ⟨t', dm, h1, hdm, ?_⟩
    rw [hreg, hphys]

theorem physics_late_binding_witness :
    (∃ dm, lookupA (initPhysics wStateMapped).store 0 = some dm ∧
      dm.physicsRegistered = true) ∧
    (∃ t' dm,
      lookupA (updateMeshes 2000 true (some wFrameNear)
        wStateEmptyPhysics).xrMeshToThreeMesh 1 = some t' ∧
      lookupA (updateMeshes 2000 true (some wFrameNear) wStateEmptyPhysics).store t' =
        some dm ∧
      dm.physicsRegistered = true) :=
  ⟨physics_late_binding.1 wStateMapped (by with_unfolding_all decide) (1, 0)
      (by with_unfolding_all decide),
   physics_late_binding.2 2000 wFrameNear [scenarioMeshA] wStateEmptyPhysics
      scenarioMeshA (by with_unfolding_all decide) rfl rfl
      (by with_unfolding_all decide) (by with_unfolding_all decide)
      (by with_unfolding_all decide) (by with_unfolding_all decide)
      (by with_unfolding_all decide) (by with_unfolding_all decide)⟩

def wFrameNoMeshes : XRFrameT :=
  { detectedMeshes := none, viewerPose := none, poses := [] }

/-- C9: Implicit — a call that passes the throttle gate but finds no XR
reference space returns with the maps and scene untouched, yet
`lastMeshUpdateTime` already stamped to the current time, so the skipped
reconciliation consumes a full update interval and the next reconciliation
is postponed; a call with no frame, or a frame without a `detectedMeshes`
set, returns before the gate and changes nothing at all, the timestamp
included. -/
theorem missing_refspace_consumes_interval :
    (∀ (now : ℚ) (rs : Bool) (s : MeshDetector), updateMeshes now rs none s = s) ∧
    (∀ (now : ℚ) (rs : Bool) (f : XRFrameT) (s : MeshDetector),
      f.detectedMeshes = none → updateMeshes now rs (some f) s = s) ∧
    (∀ (now : ℚ) (f : XRFrameT) (meshes : List XRMeshData) (s : MeshDetector),
      f.detectedMeshes = some meshes →
      ¬(now - s.lastMeshUpdateTime < MESH_UPDATE_INTERVAL_MS) →
      updateMeshes now false (some f) s = { s with lastMeshUpdateTime := now }) ∧
    (∀ (now now2 : ℚ) (f : XRFrameT) (meshes : List XRMeshData) (s : MeshDetector)
      (rs2 : Bool) (frame2 : Option XRFrameT),
      f.detectedMeshes = some meshes →
      ¬(now - s.lastMeshUpdateTime < MESH_UPDATE_INTERVAL_MS) →
      now2 - now < MESH_UPDATE_INTERVAL_MS →
      updateMeshes now2 rs2 frame2 (updateMeshes now false (some f) s) =
        updateMeshes now false (some f) s) := by
  refine ⟨fun _ _ _ => rfl, fun _ _ _ _ h => updateMeshes_noMeshes h,
    fun _ _ _ _ hm hth => updateMeshes_noRefSpace hm hth, ?_⟩
  intro now now2 f meshes s rs2 frame2 hm hth h2
  rw [updateMeshes_noRefSpace hm hth]
  exact updateMeshes_throttled h2

theorem missing_refspace_consumes_interval_witness :
    updateMeshes 2000 true none wStateMapped = wStateMapped ∧
    updateMeshes 2000 true (some wFrameNoMeshes) wStateMapped = wStateMapped ∧
    updateMeshes 2000 false (some wFrameNear) wStateMapped =
      { wStateMapped with lastMeshUpdateTime := 2000 } ∧
    updateMeshes 2500 true (some wFrameNear)
      (updateMeshes 2000 false (some wFrameNear) wStateMapped) =
      updateMeshes 2000 false (some wFrameNear) wStateMapped :=
  ⟨missing_refspace_consumes_interval.1 2000 true wStateMapped,
   missing_refspace_consumes_interval.2.1 2000 true wFrameNoMeshes wStateMapped rfl,
   missing_refspace_consumes_interval.2.2.1 2000 wFrameNear [scenarioMeshA]
      wStateMapped rfl (by with_unfolding_all decide),
   missing_refspace_consumes_interval.2.2.2 2000 2500 wFrameNear [scenarioMeshA]
      wStateMapped true (some wFrameNear) rfl (by with_unfolding_all decide)
      (by with_unfolding_all decide)⟩

/-- C10: Implicit — an already-mapped mesh processed as visible on an
eligible call whose pose lookup returns no pose keeps its `DetectedMesh`'s
position and orientation exactly as last set (the stale transform is
retained), while its geometry is still refreshed from the latest vertex
data. -/
theorem stale_transform_retained (now : ℚ) (f : XRFrameT)
    (meshes : List XRMeshData) (s : MeshDetector) (x : XRMeshData) (t : Nat)
    (dm : DetectedMeshData) (hinv : Inv s)
    (hm : f.detectedMeshes = some meshes)
    (hth : ¬(now - s.lastMeshUpdateTime < MESH_UPDATE_INTERVAL_MS))
    (hx : x ∈ meshes) (hnd : (meshes.map XRMeshData.id).Nodup)
    (hlen : meshes.length ≤ MAX_MESHES_PER_FRAME)
    (hl : lookupA s.xrMeshToThreeMesh x.id = some t)
    (hdm : lookupA s.store t = some dm)
    (hpose : lookupA f.poses x.id = none) :
    lookupA (updateMeshes now true (some f) s).xrMeshToThreeMesh x.id = some t ∧
    ∃ dm', lookupA (updateMeshes now true (some f) s).store t = some dm' ∧
      dm'.position = dm.position ∧ dm'.orientation = dm.orientation ∧
      dm'.verts = x.verts := by
  have hvis := @shouldShow_eq_none x (getCameraInfo f).position
    (getCameraInfo f).forward f hpose
  obtain ⟨h1, h2⟩ := tick_updated hinv hm hth hx hnd hlen hl hvis
  refine ⟨h1, { dm with verts := x.verts }, ?_, rfl, rfl, rfl⟩
  rw [h2, hdm]
  show some (applyPose (lookupA f.poses x.id) { dm with verts := x.verts }) = _
  rw [hpose]
  rfl

theorem stale_transform_retained_witness :
    lookupA (updateMeshes 2000 true (some wFrameNoPose)
      wStateMapped).xrMeshToThreeMesh 1 = some 0 ∧
    ∃ dm', lookupA (updateMeshes 2000 true (some wFrameNoPose) wStateMapped).store 0 =
        some dm' ∧
      dm'.position = Vec3.mk 0 0 (-1) ∧ dm'.orientation = 0 ∧ dm'.verts = 7 :=
  stale_transform_retained 2000 wFrameNoPose [scenarioMeshA] wStateMapped
    scenarioMeshA 0 ⟨⟨0, 0, -1⟩, 0, 7, MaterialKind.debug "wall", false, false⟩
    (by with_unfolding_all decide) rfl (by with_unfolding_all decide)
    (by with_unfolding_all decide) (by with_unfolding_all decide)
    (by with_unfolding_all decide) (by with_unfolding_all decide)
    (by with_unfolding_all decide) rfl

end MeshDetection
